import Mathlib

/-!
Verification development for the GRASS DateTime standalone library.

The repository ships the public header (src/include/grass/defs/datetime.h)
together with build scripts and documentation; the bodies of the eighteen C
units (between.c, misc.c, type.c, values.c, incr1.c, diff.c, tz2.c, error.c,
sign.c, format.c, scan.c, ...) are not part of the source tree here.  Every
operation below is therefore a shallow embedding modelled from the
specification (spec.md), constrained by the declarations that the header does
provide (argument and return types).  Machine integers are modelled as Int
(no operation here comes near 2^31 on the intended inputs), the C double
second field is modelled as Rat, and strings are modelled as lists of
characters.  Fallible calls return Except.
-/

namespace GrassDatetime

/-- The six precision fields, coarsest (year) to finest (second), spec section 3. -/
inductive Field where
  | year
  | month
  | day
  | hour
  | minute
  | second
deriving DecidableEq, Fintype

/-- Numeric position of a field in the significance order; used for the
range comparisons that the C code performs on the DATETIME_* integer codes. -/
def Field.idx : Field → Int
  | .year => 1
  | .month => 2
  | .day => 3
  | .hour => 4
  | .minute => 5
  | .second => 6

/-- Value mode: absolute instant or signed relative duration, spec section 3. -/
inductive Mode where
  | absolute
  | relative
deriving DecidableEq

/-- Error kinds of spec section 7. -/
inductive ErrKind where
  | invalidType
  | fieldOutOfRange
  | precisionNotIncluded
  | incompatibleRanges
  | invalidOperation
  | invalidTimezone
  | formatFailed
  | parseMalformed
  | parseOutOfRange
  | parseAmbiguous
  | incomparableTypes
deriving DecidableEq

/-- A typed error outcome: a (kind, message) pair, spec sections 4.6 and 7. -/
structure DtError where
  kind : ErrKind
  msg : String
deriving DecidableEq

/-- Modelled from the spec: the DateTime struct (datetime.h proper is not in
the tree; spec section 3 lists descriptor, six numeric fields, sign and
timezone).  The C double second is modelled as Rat, the optional timezone
offset as Option Int. -/
structure DateTime where
  mode : Mode := .absolute
  fromField : Field := .year
  toField : Field := .second
  fracsec : Int := 0
  year : Int := 0
  month : Int := 0
  day : Int := 0
  hour : Int := 0
  minute : Int := 0
  second : Rat := 0
  positive : Bool := true
  tz : Option Int := none
deriving DecidableEq

/-- Modelled from the spec: between.c is absent.  Spec section 4.3: isBetween
(x,a,b) is compare(a,x) <= 0 && compare(x,b) <= 0 on plain ints, independent
of whether a <= b. -/
def datetime_is_between (x a b : Int) : Bool :=
  a ≤ x && x ≤ b

/-- Modelled from the spec: misc.c is absent.  Spec section 4.1: a year is
leap if divisible by 4 and (not divisible by 100 or divisible by 400).  The
divisibility tests are convention independent, so Int.emod matches the C
remainder here. -/
def datetime_is_leap_year (year : Int) : Bool :=
  year % 4 == 0 && (year % 100 != 0 || year % 400 == 0)

/-- Modelled from the spec: misc.c is absent.  Gregorian month-length table
with February adjusted by leap status (spec sections 4.1 and 8). -/
def datetime_days_in_month (year month : Int) : Int :=
  if month = 2 then (if datetime_is_leap_year year then 29 else 28)
  else if month = 4 ∨ month = 6 ∨ month = 9 ∨ month = 11 then 30
  else 31

/-- Modelled from the spec: misc.c is absent.  The days in a year are the
days of its twelve months (spec section 4.1: 365 or 366 as governed by the
leap rule). -/
def datetime_days_in_year (year : Int) : Int :=
  datetime_days_in_month year 1 + datetime_days_in_month year 2 +
  datetime_days_in_month year 3 + datetime_days_in_month year 4 +
  datetime_days_in_month year 5 + datetime_days_in_month year 6 +
  datetime_days_in_month year 7 + datetime_days_in_month year 8 +
  datetime_days_in_month year 9 + datetime_days_in_month year 10 +
  datetime_days_in_month year 11 + datetime_days_in_month year 12

/-- Modelled from the spec: type.c is absent.  Membership of a field in the
calendar group {Year, Month}. -/
def datetime_in_interval_year_month (x : Field) : Bool :=
  datetime_is_between x.idx Field.year.idx Field.month.idx

/-- Modelled from the spec: type.c is absent.  Membership of a field in the
clock group {Day, Hour, Minute, Second}. -/
def datetime_in_interval_day_second (x : Field) : Bool :=
  datetime_is_between x.idx Field.day.idx Field.second.idx

/-- Two fields lie in the same group (both calendar or both clock),
spec section 3. -/
def sameGroup (f t : Field) : Bool :=
  (datetime_in_interval_year_month f && datetime_in_interval_year_month t) ||
  (datetime_in_interval_day_second f && datetime_in_interval_day_second t)

/-- Modelled from the spec: type.c is absent.  Spec section 4.1: descriptor
construction fails with InvalidType if from > to, if Relative mode spans both
groups, or if fracsecDigits is set without to = Second; otherwise the
descriptor is installed on the value. -/
def datetime_set_type (dt : DateTime) (mode : Mode) (f t : Field)
    (fracsec : Int) : Except DtError DateTime :=
  if t.idx < f.idx then
    .error ⟨.invalidType, "from field is finer than to field"⟩
  else if mode = .relative ∧ ¬ sameGroup f t then
    .error ⟨.invalidType, "relative range spans the calendar and clock groups"⟩
  else if fracsec ≠ 0 ∧ t ≠ .second then
    .error ⟨.invalidType, "fractional seconds require to = second"⟩
  else
    .ok { dt with mode := mode, fromField := f, toField := t, fracsec := fracsec }

/-- Modelled from the spec: type.c is absent.  Pure mode predicate. -/
def datetime_is_absolute (dt : DateTime) : Bool :=
  dt.mode = .absolute

/-- Modelled from the spec: type.c is absent.  Pure mode predicate. -/
def datetime_is_relative (dt : DateTime) : Bool :=
  dt.mode = .relative

/-- A field lies inside the value's configured precision range [from, to]. -/
def fieldInRange (dt : DateTime) (f : Field) : Bool :=
  datetime_is_between f.idx dt.fromField.idx dt.toField.idx

/-- Modelled from the spec: values.c is absent.  Spec section 4.1: year has
no fixed bound but must be non-zero when the mode is Absolute; spec section
4.2: a field outside [from, to] is PrecisionNotIncluded. -/
def datetime_check_year (dt : DateTime) (year : Int) : Except DtError Unit :=
  if dt.mode = .absolute ∧ year = 0 then
    .error ⟨.fieldOutOfRange, "year 0 is invalid for absolute values"⟩
  else if ¬ fieldInRange dt .year then
    .error ⟨.precisionNotIncluded, "year is outside the precision range"⟩
  else
    .ok ()

/-- Modelled from the spec: values.c is absent.  Month bound 1..12. -/
def datetime_check_month (dt : DateTime) (month : Int) : Except DtError Unit :=
  if ¬ (1 ≤ month ∧ month ≤ 12) then
    .error ⟨.fieldOutOfRange, "month out of range"⟩
  else if ¬ fieldInRange dt .month then
    .error ⟨.precisionNotIncluded, "month is outside the precision range"⟩
  else
    .ok ()

/-- Modelled from the spec: values.c is absent.  Day bound 1..daysInMonth of
the stored year and month (spec section 4.1, calendar-aware). -/
def datetime_check_day (dt : DateTime) (day : Int) : Except DtError Unit :=
  if ¬ (1 ≤ day ∧ day ≤ datetime_days_in_month dt.year dt.month) then
    .error ⟨.fieldOutOfRange, "day out of range"⟩
  else if ¬ fieldInRange dt .day then
    .error ⟨.precisionNotIncluded, "day is outside the precision range"⟩
  else
    .ok ()

/-- Modelled from the spec: values.c is absent.  Hour bound 0..23. -/
def datetime_check_hour (dt : DateTime) (hour : Int) : Except DtError Unit :=
  if ¬ (0 ≤ hour ∧ hour ≤ 23) then
    .error ⟨.fieldOutOfRange, "hour out of range"⟩
  else if ¬ fieldInRange dt .hour then
    .error ⟨.precisionNotIncluded, "hour is outside the precision range"⟩
  else
    .ok ()

/-- Modelled from the spec: values.c is absent.  Minute bound 0..59. -/
def datetime_check_minute (dt : DateTime) (minute : Int) : Except DtError Unit :=
  if ¬ (0 ≤ minute ∧ minute ≤ 59) then
    .error ⟨.fieldOutOfRange, "minute out of range"⟩
  else if ¬ fieldInRange dt .minute then
    .error ⟨.precisionNotIncluded, "minute is outside the precision range"⟩
  else
    .ok ()

/-- Modelled from the spec: values.c is absent.  Second bound 0 <= s < 60
(60 reserved, values at or above 60 rejected). -/
def datetime_check_second (dt : DateTime) (second : Rat) : Except DtError Unit :=
  if ¬ (0 ≤ second ∧ second < 60) then
    .error ⟨.fieldOutOfRange, "second out of range"⟩
  else if ¬ fieldInRange dt .second then
    .error ⟨.precisionNotIncluded, "second is outside the precision range"⟩
  else
    .ok ()

/-- Modelled from the spec: values.c is absent.  On success a setter mutates
only the stored year (spec section 4.2: no cascading changes). -/
def datetime_set_year (dt : DateTime) (year : Int) : Except DtError DateTime :=
  (datetime_check_year dt year).map fun _ => { dt with year := year }

/-- Modelled from the spec: values.c is absent. -/
def datetime_set_month (dt : DateTime) (month : Int) : Except DtError DateTime :=
  (datetime_check_month dt month).map fun _ => { dt with month := month }

/-- Modelled from the spec: values.c is absent. -/
def datetime_set_day (dt : DateTime) (day : Int) : Except DtError DateTime :=
  (datetime_check_day dt day).map fun _ => { dt with day := day }

/-- Modelled from the spec: values.c is absent. -/
def datetime_set_hour (dt : DateTime) (hour : Int) : Except DtError DateTime :=
  (datetime_check_hour dt hour).map fun _ => { dt with hour := hour }

/-- Modelled from the spec: values.c is absent. -/
def datetime_set_minute (dt : DateTime) (minute : Int) : Except DtError DateTime :=
  (datetime_check_minute dt minute).map fun _ => { dt with minute := minute }

/-- Modelled from the spec: values.c is absent. -/
def datetime_set_second (dt : DateTime) (second : Rat) : Except DtError DateTime :=
  (datetime_check_second dt second).map fun _ => { dt with second := second }

/-- Modelled from the spec: sign.c is absent.  The header declares
datetime_is_positive with an int return, so it can report failure; spec
section 4.3 says sign queries apply only to Relative values. -/
def datetime_is_positive (dt : DateTime) : Except DtError Bool :=
  if dt.mode = .relative then .ok dt.positive
  else .error ⟨.invalidOperation, "sign is defined only for relative values"⟩

/-- Modelled from the spec: sign.c is absent.  See datetime_is_positive. -/
def datetime_is_negative (dt : DateTime) : Except DtError Bool :=
  if dt.mode = .relative then .ok (! dt.positive)
  else .error ⟨.invalidOperation, "sign is defined only for relative values"⟩

/-- Modelled from the spec: sign.c is absent.  The header declares
datetime_set_positive as void, so the operation cannot report an error: it
sets the sign flag unconditionally. -/
def datetime_set_positive (dt : DateTime) : DateTime :=
  { dt with positive := true }

/-- Modelled from the spec: sign.c is absent.  Void in the header; see
datetime_set_positive. -/
def datetime_set_negative (dt : DateTime) : DateTime :=
  { dt with positive := false }

/-- Modelled from the spec: sign.c is absent.  Void in the header; flips the
sign flag unconditionally. -/
def datetime_invert_sign (dt : DateTime) : DateTime :=
  { dt with positive := ! dt.positive }

/-- Modelled from the spec: error.c is absent, but the header declares
datetime_error_code(void), datetime_error_msg(void) and
datetime_clear_error(void), which take no value argument and therefore can
only read or reset process-wide state.  The state is one (code, message)
slot. -/
structure ErrorState where
  code : Int := 0
  msg : String := ""
deriving DecidableEq

/-- Modelled from the spec: error.c is absent.  datetime_error(code, msg)
records the pair in the shared slot and returns the code to its caller. -/
def datetime_error (code : Int) (msg : String) (s : ErrorState) :
    Int × ErrorState :=
  (code, { s with code := code, msg := msg })

/-- Modelled from the spec: error.c is absent.  Reads the shared slot. -/
def datetime_error_code (s : ErrorState) : Int :=
  s.code

/-- Modelled from the spec: error.c is absent.  Reads the shared slot. -/
def datetime_error_msg (s : ErrorState) : String :=
  s.msg

/-- Modelled from the spec: error.c is absent.  Resets the shared slot. -/
def datetime_clear_error (_ : ErrorState) : ErrorState :=
  {}

/-- A call against the error channel, for stating history dependence. -/
inductive ErrCall where
  | report (code : Int) (msg : String)
  | clear
deriving DecidableEq

/-- Run a sequence of error-channel calls from the initial (cleared) state. -/
def runErrCalls (calls : List ErrCall) : ErrorState :=
  calls.foldl
    (fun s c =>
      match c with
      | .report code msg => (datetime_error code msg s).2
      | .clear => datetime_clear_error s)
    {}

/-! ### Arithmetic engine (spec section 4.3)

Carry propagation is modelled least-significant-field-first, exactly as spec
section 4.3 describes it: the uniform clock fields carry by base-60/60/24
decomposition, and the day field carries into month and year with the
calendar-correct modulus daysInMonth, recomputed after every step.  The
day-number scaffolding below exists only to prove the carry loop correct. -/

/-- Days of the proleptic Gregorian calendar strictly before year y, counted
from 1 Jan of year 1 (total on all of Int; Int division is floor division
for the positive divisors used here). -/
def daysBeforeYear (y : Int) : Int :=
  365 * (y - 1) + (y - 1) / 4 - (y - 1) / 100 + (y - 1) / 400

/-- Days of year y strictly before month mo (cumulative Gregorian table). -/
def daysBeforeMonth (y mo : Int) : Int :=
  if mo ≤ 1 then 0
  else if mo = 2 then 31
  else
    let feb := datetime_days_in_month y 2
    if mo = 3 then 31 + feb
    else if mo = 4 then 62 + feb
    else if mo = 5 then 92 + feb
    else if mo = 6 then 123 + feb
    else if mo = 7 then 153 + feb
    else if mo = 8 then 184 + feb
    else if mo = 9 then 215 + feb
    else if mo = 10 then 245 + feb
    else if mo = 11 then 276 + feb
    else if mo = 12 then 306 + feb
    else 337 + feb

/-- Linear day number of a calendar date (day 0 is 1 Jan of year 1). -/
def dayNum (y mo d : Int) : Int :=
  daysBeforeYear y + daysBeforeMonth y mo + (d - 1)

/-- Upward day carry: while the day exceeds the length of the current month,
subtract that length and advance the month (rolling the year over after
December).  Fuel-based structural recursion; d.toNat fuel always suffices. -/
def normUpAux : Nat → Int → Int → Int → Int × Int × Int
  | 0, y, mo, d => (y, mo, d)
  | f + 1, y, mo, d =>
    if d ≤ datetime_days_in_month y mo then (y, mo, d)
    else if mo = 12 then normUpAux f (y + 1) 1 (d - datetime_days_in_month y 12)
    else normUpAux f y (mo + 1) (d - datetime_days_in_month y mo)

/-- Downward day borrow: while the day is below 1, step to the previous
month (rolling the year back before January) and add its length. -/
def normDownAux : Nat → Int → Int → Int → Int × Int × Int
  | 0, y, mo, d => (y, mo, d)
  | f + 1, y, mo, d =>
    if 1 ≤ d then (y, mo, d)
    else
      let y' := if mo = 1 then y - 1 else y
      let mo' := if mo = 1 then 12 else mo - 1
      normDownAux f y' mo' (d + datetime_days_in_month y' mo')

/-- Resolve the day field into [1, daysInMonth] by borrowing then carrying,
spec section 4.3 (the modulus for Day is recomputed after Month and Year
settle). -/
def normalizeDays (y mo d : Int) : Int × Int × Int :=
  let dn := normDownAux (1 - d).toNat y mo d
  normUpAux dn.2.2.toNat dn.1 dn.2.1 dn.2.2

/-- Signed clock-group content of a relative value in seconds; fields
outside the value's [from, to] are treated as zero (spec section 3). -/
def relClockSeconds (d : DateTime) : Rat :=
  let dd : Int := if fieldInRange d .day then d.day else 0
  let hh : Int := if fieldInRange d .hour then d.hour else 0
  let mi : Int := if fieldInRange d .minute then d.minute else 0
  let ss : Rat := if fieldInRange d .second then d.second else 0
  let mag : Rat := 86400 * (dd : Rat) + 3600 * (hh : Rat) + 60 * (mi : Rat) + ss
  if d.positive then mag else -mag

/-- Signed calendar-group content of a relative value in months; fields
outside the value's [from, to] are treated as zero. -/
def relMonths (d : DateTime) : Int :=
  let yy : Int := if fieldInRange d .year then d.year else 0
  let mm : Int := if fieldInRange d .month then d.month else 0
  if d.positive then 12 * yy + mm else -(12 * yy + mm)

/-- Second-of-day content of an absolute value; fields outside the value's
[from, to] are treated as zero. -/
def absClockSod (src : DateTime) : Rat :=
  (if fieldInRange src .hour then 3600 * (src.hour : Rat) else 0) +
  (if fieldInRange src .minute then 60 * (src.minute : Rat) else 0) +
  (if fieldInRange src .second then src.second else 0)

/-- Modelled from the spec: incr1.c is absent.  Spec section 4.3: the delta
must be Relative and its range a compatible sub-range of the base
(IncompatibleRanges otherwise); the delta's signed magnitude is added at its
fields and carries are resolved least-significant-field-first with
calendar-correct moduli.  Modelled for absolute bases, the case every claim
exercises. -/
def datetime_increment (src incr : DateTime) : Except DtError DateTime :=
  if src.mode ≠ .absolute ∨ incr.mode ≠ .relative then
    .error ⟨.incompatibleRanges, "increment needs an absolute base and a relative delta"⟩
  else if ¬ (src.fromField.idx ≤ incr.fromField.idx ∧
             incr.toField.idx ≤ src.toField.idx) then
    .error ⟨.incompatibleRanges, "delta range is not a sub-range of the base range"⟩
  else if datetime_in_interval_year_month incr.fromField ∧
          datetime_in_interval_year_month incr.toField then
    -- calendar-group delta: base range must include the calendar group
    if ¬ (fieldInRange src .year ∧ fieldInRange src .month) then
      .error ⟨.incompatibleRanges, "calendar delta needs a base with year and month"⟩
    else
      let M := 12 * src.year + (src.month - 1) + relMonths incr
      let y1 := M / 12
      let mo1 := M % 12 + 1
      let n := if fieldInRange src .day then normalizeDays y1 mo1 src.day
               else (y1, mo1, src.day)
      .ok { src with year := n.1, month := n.2.1, day := n.2.2 }
  else if datetime_in_interval_day_second incr.fromField ∧
          datetime_in_interval_day_second incr.toField then
    -- clock-group delta: base range must include the day field
    if ¬ fieldInRange src .day then
      .error ⟨.incompatibleRanges, "clock delta needs a base including the day field"⟩
    else
      let T : Rat := absClockSod src + relClockSeconds incr
      let c : Int := ⌊T / 86400⌋
      let sod : Rat := T - 86400 * (c : Rat)
      let n := if fieldInRange src .month then normalizeDays src.year src.month (src.day + c)
               else (src.year, src.month, src.day + c)
      let h : Int := ⌊sod / 3600⌋
      let r1 : Rat := sod - 3600 * (h : Rat)
      let mi : Int := ⌊r1 / 60⌋
      let s : Rat := r1 - 60 * (mi : Rat)
      .ok { src with
            year := n.1,
            month := n.2.1,
            day := n.2.2,
            hour := if fieldInRange src .hour then h else src.hour,
            minute := if fieldInRange src .minute then mi else src.minute,
            second := if fieldInRange src .second then s else src.second }
  else
    .error ⟨.incompatibleRanges, "delta spans the calendar and clock groups"⟩

/-- Three-way comparison on Int. -/
def cmpInt (a b : Int) : Ordering :=
  if a < b then .lt else if a = b then .eq else .gt

/-- Three-way comparison on Rat. -/
def cmpRat (a b : Rat) : Ordering :=
  if a < b then .lt else if a = b then .eq else .gt

/-- Modelled from the spec: spec section 4.3, comparison by fields in order
of significance, year first, first unequal field decides.  Stated on the six
stored fields; for well-formed values the fields outside [from, to] are
zero, so this agrees with the in-range comparison. -/
def compareValues (a b : DateTime) : Ordering :=
  (cmpInt a.year b.year).then <| (cmpInt a.month b.month).then <|
    (cmpInt a.day b.day).then <| (cmpInt a.hour b.hour).then <|
      (cmpInt a.minute b.minute).then <| cmpRat a.second b.second

/-- The six numeric fields with everything outside [from, to] forced to
zero: the projection under which every operation reads a value
(spec section 3). -/
def zeroOutside (v : DateTime) : DateTime :=
  { v with
    year := if fieldInRange v .year then v.year else 0,
    month := if fieldInRange v .month then v.month else 0,
    day := if fieldInRange v .day then v.day else 0,
    hour := if fieldInRange v .hour then v.hour else 0,
    minute := if fieldInRange v .minute then v.minute else 0,
    second := if fieldInRange v .second then v.second else 0 }

/-- Chronological content of an absolute value in seconds since the epoch
day 0 (pure function of the six stored fields). -/
def toSeconds (v : DateTime) : Rat :=
  86400 * ((dayNum v.year v.month v.day : Int) : Rat) +
    3600 * (v.hour : Rat) + 60 * (v.minute : Rat) + v.second

/-- Half-away-from-zero rounding to an integer (the magnitudes rounded here
are nonnegative, where half-away agrees with floor of q + 1/2). -/
def roundHalfQ (q : Rat) : Int :=
  ⌊q + 1 / 2⌋

/-- Decompose a nonnegative number of seconds into the clock fields of the
result range [f, t]: fields above f stay zero, fields strictly between f
and t take their floor share, and the finest field t (when coarser than
Second) is rounded half-away-from-zero (spec sections 4.3 and 9, shared
carry routine), written out per clock sub-range. -/
def decomposeClock (f t : Field) (T : Rat) : Int × Int × Int × Rat :=
  match f, t with
  | .day, .day => (roundHalfQ (T / 86400), 0, 0, 0)
  | .day, .hour =>
    let dd := ⌊T / 86400⌋
    (dd, roundHalfQ ((T - 86400 * (dd : Rat)) / 3600), 0, 0)
  | .day, .minute =>
    let dd := ⌊T / 86400⌋
    let T1 := T - 86400 * (dd : Rat)
    let hh := ⌊T1 / 3600⌋
    (dd, hh, roundHalfQ ((T1 - 3600 * (hh : Rat)) / 60), 0)
  | .day, .second =>
    let dd := ⌊T / 86400⌋
    let T1 := T - 86400 * (dd : Rat)
    let hh := ⌊T1 / 3600⌋
    let T2 := T1 - 3600 * (hh : Rat)
    let mi := ⌊T2 / 60⌋
    (dd, hh, mi, T2 - 60 * (mi : Rat))
  | .hour, .hour => (0, roundHalfQ (T / 3600), 0, 0)
  | .hour, .minute =>
    let hh := ⌊T / 3600⌋
    (0, hh, roundHalfQ ((T - 3600 * (hh : Rat)) / 60), 0)
  | .hour, .second =>
    let hh := ⌊T / 3600⌋
    let T2 := T - 3600 * (hh : Rat)
    let mi := ⌊T2 / 60⌋
    (0, hh, mi, T2 - 60 * (mi : Rat))
  | .minute, .minute => (0, 0, roundHalfQ (T / 60), 0)
  | .minute, .second =>
    let mi := ⌊T / 60⌋
    (0, 0, mi, T - 60 * (mi : Rat))
  | .second, .second => (0, 0, 0, T)
  | _, _ => (0, 0, 0, 0)

/-- Calendar-group branch of the difference: month-count delta of the two
operands decomposed into the result range, sign from the field
comparison. -/
def diffCalendar (a b res : DateTime) : DateTime :=
  let za := zeroOutside a
  let zb := zeroOutside b
  let pos : Bool := compareValues za zb ≠ .lt
  let dm := (12 * za.year + za.month) - (12 * zb.year + zb.month)
  let mag := if dm < 0 then -dm else dm
  let yy : Int :=
    if res.fromField = .year then
      (if res.toField = .year then mag / 12 + (if 6 ≤ mag % 12 then 1 else 0)
       else mag / 12)
    else 0
  let mm : Int :=
    if res.toField = .month then (if res.fromField = .year then mag % 12 else mag)
    else 0
  { res with
    year := yy, month := mm, day := 0, hour := 0, minute := 0,
    second := 0, positive := pos, tz := none }

/-- Clock-group branch of the difference: seconds delta of the two operands
decomposed into the result range, sign from the field comparison. -/
def diffClock (a b res : DateTime) : DateTime :=
  let za := zeroOutside a
  let zb := zeroOutside b
  let pos : Bool := compareValues za zb ≠ .lt
  let dq := toSeconds za - toSeconds zb
  let mag : Rat := if dq < 0 then -dq else dq
  let w := decomposeClock res.fromField res.toField mag
  { res with
    year := 0, month := 0, day := w.1, hour := w.2.1,
    minute := w.2.2.1, second := w.2.2.2, positive := pos, tz := none }

/-- Modelled from the spec: diff.c is absent.  The C interface fills a
caller-supplied result value whose descriptor is already set, so the result
range arrives through res; spec section 4.3: both operands must be Absolute,
the sign is Positive when a is not below b under the field comparison, and
the magnitude is the field-by-field delta decomposed by the shared
carry/borrow routine, rounding at the finest configured field. -/
def datetime_difference (a b res : DateTime) : Except DtError DateTime :=
  if a.mode ≠ .absolute ∨ b.mode ≠ .absolute then
    .error ⟨.incompatibleRanges, "difference needs absolute operands"⟩
  else if res.mode ≠ .relative then
    .error ⟨.incompatibleRanges, "difference result must be relative"⟩
  else if ¬ (res.fromField.idx ≤ res.toField.idx ∧
             sameGroup res.fromField res.toField) then
    .error ⟨.invalidType, "difference result range is invalid"⟩
  else if datetime_in_interval_year_month res.fromField then
    .ok (diffCalendar a b res)
  else
    .ok (diffClock a b res)

/-- A relative Minute..Minute value carrying the signed shift sh. -/
def minuteDelta (sh : Int) : DateTime :=
  { mode := .relative, fromField := .minute, toField := .minute,
    fracsec := 0, year := 0, month := 0, day := 0, hour := 0,
    minute := if sh < 0 then -sh else sh, second := 0,
    positive := decide (0 ≤ sh), tz := none }

/-- Modelled from the spec: tz2.c is absent.  Spec section 4.4:
changeTimezone requires an existing offset, applies the signed difference
(newMinutes - currentOffset) to the clock fields through the increment
algorithm as minutes, then stores newMinutes. -/
def datetime_change_timezone (dt : DateTime) (minutes : Int) :
    Except DtError DateTime :=
  match dt.tz with
  | none => .error ⟨.invalidTimezone, "no timezone offset is set"⟩
  | some cur =>
    (datetime_increment dt (minuteDelta (minutes - cur))).map
      fun r => { r with tz := some minutes }

/-- Modelled from the spec: tz2.c is absent.  toUtc is changeTimezone to
offset 0 (spec section 4.4). -/
def datetime_change_to_utc (dt : DateTime) : Except DtError DateTime :=
  datetime_change_timezone dt 0

/-- Modelled from the spec: tz2.c is absent.  Splits a signed offset into
hour and minute components sharing the same sign. -/
def datetime_decompose_timezone (tzv : Int) : Int × Int :=
  if 0 ≤ tzv then (tzv / 60, tzv % 60)
  else (-((-tzv) / 60), -((-tzv) % 60))

/-- Calendar and clock bounds on the six stored fields of a value
(spec section 4.1); the validity envelope under which the arithmetic
theorems operate. -/
def clockValid (v : DateTime) : Prop :=
  1 ≤ v.month ∧ v.month ≤ 12 ∧
  1 ≤ v.day ∧ v.day ≤ datetime_days_in_month v.year v.month ∧
  0 ≤ v.hour ∧ v.hour ≤ 23 ∧
  0 ≤ v.minute ∧ v.minute ≤ 59 ∧
  0 ≤ v.second ∧ v.second < 60

instance (v : DateTime) : Decidable (clockValid v) := by
  unfold clockValid
  infer_instance

/-! ### Textual codec (spec section 4.5)

Strings are modelled as lists of characters.  The canonical absolute layout
is D Mon YYYY HH:MM:SS[.fff] [+HHMM|-HHMM] with fields outside [from, to]
omitted from both ends; relative values render as worded components.  -/

/-- The decimal digit character for n < 10. -/
def digitChar (n : Nat) : Char :=
  Char.ofNat (48 + n)

/-- Decimal digits of n, most significant first (fuel-based; fuel n + 1
always suffices). -/
def natToCharsAux : Nat → Nat → List Char → List Char
  | 0, _, acc => acc
  | f + 1, n, acc =>
    if n < 10 then digitChar n :: acc
    else natToCharsAux f (n / 10) (digitChar (n % 10) :: acc)

/-- Unpadded decimal rendering of a natural number. -/
def natToChars (n : Nat) : List Char :=
  natToCharsAux (n + 1) n []

/-- Left-pad a digit string with zeros to width w. -/
def padLeftZero (w : Nat) (l : List Char) : List Char :=
  List.replicate (w - l.length) '0' ++ l

/-- Zero-padded decimal rendering of width w. -/
def padNat (w n : Nat) : List Char :=
  padLeftZero w (natToChars n)

/-- Decimal digit test. -/
def isDigitCh (c : Char) : Bool :=
  48 ≤ c.toNat && c.toNat ≤ 57

/-- Every character of the token is a decimal digit and the token is
nonempty. -/
def allDigits (l : List Char) : Bool :=
  !l.isEmpty && l.all isDigitCh

/-- Numeric value of a digit string (most significant first). -/
def parseNat (l : List Char) : Nat :=
  l.foldl (fun a c => a * 10 + (c.toNat - 48)) 0

/-- Join tokens with a separator character. -/
def joinSep (sep : Char) : List (List Char) → List Char
  | [] => []
  | [t] => t
  | t :: ts => t ++ sep :: joinSep sep ts

/-- Split a character list at every occurrence of the separator. -/
def splitSep (sep : Char) : List Char → List (List Char)
  | [] => [[]]
  | c :: rest =>
    let r := splitSep sep rest
    if c = sep then [] :: r
    else
      match r with
      | [] => [[c]]
      | t :: ts => (c :: t) :: ts

/-- English month-name abbreviations of the canonical layout. -/
def monthName (mo : Int) : List Char :=
  if mo = 1 then "Jan".toList
  else if mo = 2 then "Feb".toList
  else if mo = 3 then "Mar".toList
  else if mo = 4 then "Apr".toList
  else if mo = 5 then "May".toList
  else if mo = 6 then "Jun".toList
  else if mo = 7 then "Jul".toList
  else if mo = 8 then "Aug".toList
  else if mo = 9 then "Sep".toList
  else if mo = 10 then "Oct".toList
  else if mo = 11 then "Nov".toList
  else "Dec".toList

/-- Recognize a month-name token. -/
def monthFromName (t : List Char) : Option Int :=
  if t = "Jan".toList then some 1
  else if t = "Feb".toList then some 2
  else if t = "Mar".toList then some 3
  else if t = "Apr".toList then some 4
  else if t = "May".toList then some 5
  else if t = "Jun".toList then some 6
  else if t = "Jul".toList then some 7
  else if t = "Aug".toList then some 8
  else if t = "Sep".toList then some 9
  else if t = "Oct".toList then some 10
  else if t = "Nov".toList then some 11
  else if t = "Dec".toList then some 12
  else none

/-- Seconds rendering: two padded integer digits, then fracsec fractional
digits after a point when fracsec is nonzero; the value is rounded
half-away-from-zero at the configured digit count. -/
def secondChars (s : Rat) (fracsec : Int) : List Char :=
  let f := fracsec.toNat
  let n : Int := roundHalfQ (s * ((10 : Rat) ^ f))
  let whole := n / (10 : Int) ^ f
  let fr := n % (10 : Int) ^ f
  padNat 2 whole.toNat ++ (if f = 0 then [] else '.' :: padNat f fr.toNat)

/-- The colon-joined clock token of an absolute value (only in-range
fields appear). -/
def clockChars (v : DateTime) : List Char :=
  joinSep ':'
    ((if fieldInRange v .hour then [padNat 2 v.hour.toNat] else []) ++
     (if fieldInRange v .minute then [padNat 2 v.minute.toNat] else []) ++
     (if fieldInRange v .second then [secondChars v.second v.fracsec] else []))

/-- The +HHMM or -HHMM timezone suffix token. -/
def tzChars (m : Int) : List Char :=
  let a := if m < 0 then -m else m
  (if m < 0 then '-' else '+') :: (padNat 2 (a / 60).toNat ++ padNat 2 (a % 60).toNat)

/-- The worded component list of a relative value: number and unit word for
every in-range field, omitting zero-valued leading components but keeping
the last one. -/
def relComponents (v : DateTime) : List (Int × List Char) :=
  (if fieldInRange v .year then [(v.year, "years".toList)] else []) ++
  (if fieldInRange v .month then [(v.month, "months".toList)] else []) ++
  (if fieldInRange v .day then [(v.day, "days".toList)] else []) ++
  (if fieldInRange v .hour then [(v.hour, "hours".toList)] else []) ++
  (if fieldInRange v .minute then [(v.minute, "minutes".toList)] else []) ++
  (if fieldInRange v .second then [(roundHalfQ v.second, "seconds".toList)] else [])

/-- Drop zero-valued leading components, keeping at least the final one. -/
def dropZeroLead : List (Int × List Char) → List (Int × List Char)
  | [] => []
  | [c] => [c]
  | c :: cs => if c.1 = 0 then dropZeroLead cs else c :: cs

/-- Modelled from the spec: format.c is absent.  Spec section 4.5: emits
only the fields in range in the fixed canonical layout, with a leading minus
for negative relative values and an optional timezone suffix. -/
def datetime_format (v : DateTime) : List Char :=
  match v.mode with
  | .absolute =>
    joinSep ' '
      ((if fieldInRange v .day then [natToChars v.day.toNat] else []) ++
       (if fieldInRange v .month then [monthName v.month] else []) ++
       (if fieldInRange v .year then [natToChars v.year.toNat] else []) ++
       (if fieldInRange v .hour ∨ fieldInRange v .minute ∨ fieldInRange v .second then
          [clockChars v] else []) ++
       (match v.tz with
        | some m => [tzChars m]
        | none => []))
  | .relative =>
    let comps := dropZeroLead (relComponents v)
    let body := joinSep ' ' (comps.map fun c => joinSep ' ' [natToChars c.1.toNat, c.2])
    if v.positive then body else '-' :: body

instance {ε α : Type} [DecidableEq ε] [DecidableEq α] :
    DecidableEq (Except ε α) := fun a b =>
  match a, b with
  | .ok x, .ok y =>
    if h : x = y then .isTrue (by rw [h]) else .isFalse (by simp [h])
  | .error x, .error y =>
    if h : x = y then .isTrue (by rw [h]) else .isFalse (by simp [h])
  | .ok _, .error _ => .isFalse (by simp)
  | .error _, .ok _ => .isFalse (by simp)

/-- Does the token contain a colon (clock fragment)? -/
def hasColon (t : List Char) : Bool :=
  t.any (fun c => c = ':')

/-- Does the token start a timezone suffix? -/
def isTzTok (t : List Char) : Bool :=
  match t with
  | c :: _ => c = '+' || c = '-'
  | [] => false

/-- Unit words of the relative layout. -/
def unitField (t : List Char) : Option Field :=
  if t = "years".toList then some .year
  else if t = "months".toList then some .month
  else if t = "days".toList then some .day
  else if t = "hours".toList then some .hour
  else if t = "minutes".toList then some .minute
  else if t = "seconds".toList then some .second
  else none

/-- Parse a clock token HH[:MM[:SS[.fff]]]; returns hour, minute, second,
the finest field present and the fractional digit count. -/
def parseClockTok (t : List Char) :
    Except DtError (Int × Int × Rat × Field × Int) :=
  match splitSep ':' t with
  | [a] =>
    if allDigits a then
      let h : Int := parseNat a
      if h ≤ 23 then .ok (h, 0, 0, .hour, 0)
      else .error ⟨.parseOutOfRange, "hour out of range"⟩
    else .error ⟨.parseMalformed, "clock token is not numeric"⟩
  | [a, b] =>
    if allDigits a && allDigits b then
      let h : Int := parseNat a
      let mi : Int := parseNat b
      if h ≤ 23 ∧ mi ≤ 59 then .ok (h, mi, 0, .minute, 0)
      else .error ⟨.parseOutOfRange, "clock field out of range"⟩
    else .error ⟨.parseMalformed, "clock token is not numeric"⟩
  | [a, b, c] =>
    if allDigits a && allDigits b then
      let h : Int := parseNat a
      let mi : Int := parseNat b
      if h ≤ 23 ∧ mi ≤ 59 then
        match splitSep '.' c with
        | [w] =>
          if allDigits w then
            let sv : Int := parseNat w
            if sv ≤ 59 then .ok (h, mi, (sv : Rat), .second, 0)
            else .error ⟨.parseOutOfRange, "second out of range"⟩
          else .error ⟨.parseMalformed, "second token is not numeric"⟩
        | [w, fr] =>
          if allDigits w && allDigits fr then
            let sv : Int := parseNat w
            if sv ≤ 59 then
              .ok (h, mi,
                (sv : Rat) + (parseNat fr : Rat) / (10 : Rat) ^ fr.length,
                .second, (fr.length : Int))
            else .error ⟨.parseOutOfRange, "second out of range"⟩
          else .error ⟨.parseMalformed, "second token is not numeric"⟩
        | _ => .error ⟨.parseMalformed, "too many points in the second token"⟩
      else .error ⟨.parseOutOfRange, "clock field out of range"⟩
    else .error ⟨.parseMalformed, "clock token is not numeric"⟩
  | _ => .error ⟨.parseMalformed, "too many clock components"⟩

/-- Parse a +HHMM or -HHMM timezone token within the valid offset bound. -/
def parseTzTok (t : List Char) : Except DtError Int :=
  match t with
  | c :: rest =>
    if (c = '+' ∨ c = '-') ∧ rest.length = 4 ∧ allDigits rest then
      let hh : Int := parseNat (rest.take 2)
      let mm : Int := parseNat (rest.drop 2)
      if mm ≤ 59 then
        let v := 60 * hh + mm
        if c = '-' then
          if v ≤ 720 then .ok (-v)
          else .error ⟨.parseOutOfRange, "timezone offset out of range"⟩
        else
          if v ≤ 840 then .ok v
          else .error ⟨.parseOutOfRange, "timezone offset out of range"⟩
      else .error ⟨.parseOutOfRange, "timezone minutes out of range"⟩
    else .error ⟨.parseMalformed, "bad timezone token"⟩
  | [] => .error ⟨.parseMalformed, "empty timezone token"⟩

/-- A fresh absolute value over the range [f, t]. -/
def mkAbsRange (f t : Field) (y mo d h mi : Int) (s : Rat) (fs : Int)
    (tzv : Option Int) : DateTime :=
  { mode := .absolute, fromField := f, toField := t, fracsec := fs,
    year := y, month := mo, day := d, hour := h, minute := mi, second := s,
    positive := true, tz := tzv }

/-- Parse number-unit pairs of the relative layout. -/
def parseRelPairs : List (List Char) → Except DtError (List (Field × Int))
  | [] => .ok []
  | n :: u :: rest =>
    if allDigits n then
      match unitField u with
      | some f =>
        (parseRelPairs rest).map fun ps => (f, (parseNat n : Int)) :: ps
      | none => .error ⟨.parseMalformed, "unknown unit word"⟩
    else .error ⟨.parseMalformed, "component is not numeric"⟩
  | _ => .error ⟨.parseMalformed, "dangling relative component"⟩

/-- Components must be consecutive fields in descending significance. -/
def relPairsConsecutive : List (Field × Int) → Bool
  | [] => true
  | [_] => true
  | a :: b :: rest => (b.1.idx = a.1.idx + 1) && relPairsConsecutive (b :: rest)

/-- Assemble a relative value from parsed components. -/
def relAssemble (sign : Bool) (ps : List (Field × Int)) :
    Except DtError DateTime :=
  match ps with
  | [] => .error ⟨.parseMalformed, "empty relative value"⟩
  | first :: _ =>
    if relPairsConsecutive ps then
      let lastF := (ps.getLast? ).map (fun c => c.1)
      let look := fun (f : Field) =>
        (ps.lookup f).getD 0
      match lastF with
      | some lf =>
        if sameGroup first.1 lf then
          .ok { mode := .relative, fromField := first.1, toField := lf,
                fracsec := 0, year := look .year, month := look .month,
                day := look .day, hour := look .hour, minute := look .minute,
                second := (look .second : Rat), positive := sign, tz := none }
        else .error ⟨.parseMalformed, "relative range spans both groups"⟩
      | none => .error ⟨.parseMalformed, "empty relative value"⟩
    else .error ⟨.parseMalformed, "components are not consecutive"⟩

/-- Do the tokens look like a relative value? -/
def isRelTokens (tokens : List (List Char)) : Bool :=
  match tokens with
  | t1 :: rest =>
    (match t1 with
     | c :: _ => c = '-'
     | [] => false) ||
    (match rest with
     | u :: _ => (unitField u).isSome
     | [] => false)
  | [] => false

/-- Absolute-layout token dispatch; spec section 4.5: infer the narrowest
range consistent with the fields present, and fail with AmbiguousPrecision
rather than guessing when two well-formed readings exist (a bare number up
to 31 is a day or a year; a bare two-component clock fragment is HH:MM or
MM:SS; D Mon N with N up to 23 is a year or an hour reading). -/
def parseAbsTokens (tokens : List (List Char)) : Except DtError DateTime :=
  match tokens with
  | [t1] =>
    if allDigits t1 then
      let n : Int := parseNat t1
      if n ≤ 31 then
        .error ⟨.parseAmbiguous, "a bare small number is a day or a year"⟩
      else .ok (mkAbsRange .year .year n 0 0 0 0 0 0 none)
    else if hasColon t1 then
      match splitSep ':' t1 with
      | [_, _] =>
        .error ⟨.parseAmbiguous, "a bare clock pair reads as HH:MM or MM:SS"⟩
      | _ =>
        (parseClockTok t1).map fun r =>
          mkAbsRange .hour r.2.2.2.1 0 0 0 r.1 r.2.1 r.2.2.1 r.2.2.2.2 none
    else
      match monthFromName t1 with
      | some mo => .ok (mkAbsRange .month .month 0 mo 0 0 0 0 0 none)
      | none => .error ⟨.parseMalformed, "unrecognized token"⟩
  | [t1, t2] =>
    if allDigits t1 then
      match monthFromName t2 with
      | some mo =>
        let d : Int := parseNat t1
        if 1 ≤ d ∧ d ≤ 31 then .ok (mkAbsRange .month .day 0 mo d 0 0 0 0 none)
        else .error ⟨.parseOutOfRange, "day out of range"⟩
      | none =>
        if hasColon t2 then
          let d : Int := parseNat t1
          if 1 ≤ d ∧ d ≤ 31 then
            (parseClockTok t2).map fun r =>
              mkAbsRange .day r.2.2.2.1 0 0 d r.1 r.2.1 r.2.2.1 r.2.2.2.2 none
          else .error ⟨.parseOutOfRange, "day out of range"⟩
        else if allDigits t2 then
          let d : Int := parseNat t1
          let h : Int := parseNat t2
          if 1 ≤ d ∧ d ≤ 31 ∧ h ≤ 23 then
            .ok (mkAbsRange .day .hour 0 0 d h 0 0 0 none)
          else .error ⟨.parseOutOfRange, "field out of range"⟩
        else .error ⟨.parseMalformed, "unrecognized token pair"⟩
    else
      match monthFromName t1 with
      | some mo =>
        if allDigits t2 then
          let y : Int := parseNat t2
          if y = 0 then .error ⟨.parseOutOfRange, "year 0 is invalid"⟩
          else .ok (mkAbsRange .year .month y mo 0 0 0 0 0 none)
        else .error ⟨.parseMalformed, "unrecognized token after month"⟩
      | none => .error ⟨.parseMalformed, "unrecognized token pair"⟩
  | [t1, t2, t3] =>
    if allDigits t1 then
      match monthFromName t2 with
      | some mo =>
        let d : Int := parseNat t1
        if allDigits t3 then
          let y : Int := parseNat t3
          if y ≤ 23 then
            .error ⟨.parseAmbiguous, "trailing number reads as a year or an hour"⟩
          else if 1 ≤ d ∧ d ≤ datetime_days_in_month y mo then
            .ok (mkAbsRange .year .day y mo d 0 0 0 0 none)
          else .error ⟨.parseOutOfRange, "day out of range"⟩
        else if hasColon t3 then
          if 1 ≤ d ∧ d ≤ 31 then
            (parseClockTok t3).map fun r =>
              mkAbsRange .month r.2.2.2.1 0 mo d r.1 r.2.1 r.2.2.1 r.2.2.2.2 none
          else .error ⟨.parseOutOfRange, "day out of range"⟩
        else .error ⟨.parseMalformed, "unrecognized third token"⟩
      | none => .error ⟨.parseMalformed, "expected a month name"⟩
    else .error ⟨.parseMalformed, "unrecognized tokens"⟩
  | [t1, t2, t3, t4] =>
    if allDigits t1 then
      match monthFromName t2 with
      | some mo =>
        if allDigits t3 ∧ ¬ isTzTok t4 then
          let d : Int := parseNat t1
          let y : Int := parseNat t3
          if y = 0 then .error ⟨.parseOutOfRange, "year 0 is invalid"⟩
          else if 1 ≤ d ∧ d ≤ datetime_days_in_month y mo then
            (parseClockTok t4).map fun r =>
              mkAbsRange .year r.2.2.2.1 y mo d r.1 r.2.1 r.2.2.1 r.2.2.2.2 none
          else .error ⟨.parseOutOfRange, "day out of range"⟩
        else .error ⟨.parseMalformed, "unrecognized tokens"⟩
      | none => .error ⟨.parseMalformed, "expected a month name"⟩
    else .error ⟨.parseMalformed, "unrecognized tokens"⟩
  | [t1, t2, t3, t4, t5] =>
    if allDigits t1 ∧ isTzTok t5 then
      match monthFromName t2 with
      | some mo =>
        if allDigits t3 then
          let d : Int := parseNat t1
          let y : Int := parseNat t3
          if y = 0 then .error ⟨.parseOutOfRange, "year 0 is invalid"⟩
          else if 1 ≤ d ∧ d ≤ datetime_days_in_month y mo then
            (parseClockTok t4).bind fun r =>
              (parseTzTok t5).map fun tzv =>
                mkAbsRange .year r.2.2.2.1 y mo d r.1 r.2.1 r.2.2.1 r.2.2.2.2
                  (some tzv)
          else .error ⟨.parseOutOfRange, "day out of range"⟩
        else .error ⟨.parseMalformed, "unrecognized tokens"⟩
      | none => .error ⟨.parseMalformed, "expected a month name"⟩
    else .error ⟨.parseMalformed, "unrecognized tokens"⟩
  | _ => .error ⟨.parseMalformed, "unrecognized token shape"⟩

/-- Modelled from the spec: scan.c is absent.  Spec section 4.5: recognizes
the canonical layout, infers the narrowest range consistent with the fields
present, and fails with a typed ParseError rather than guessing. -/
def datetime_scan (buf : List Char) : Except DtError DateTime :=
  let tokens := splitSep ' ' buf
  if isRelTokens tokens then
    match tokens with
    | ('-' :: c :: cs) :: rest =>
      (parseRelPairs ((c :: cs) :: rest)).bind (relAssemble false)
    | _ => (parseRelPairs tokens).bind (relAssemble true)
  else
    parseAbsTokens tokens

/-- The canonical absolute Year..t value with the given field contents;
fields beyond t hold the zero defaults, and fracsec is nonzero only when the
range reaches Second. -/
def canonicalAbs (t : Field) (y mo d h mi : Int) (s : Rat) (fs : Int)
    (tzv : Option Int) : DateTime :=
  { mode := .absolute, fromField := .year, toField := t,
    fracsec := if t = .second then fs else 0,
    year := y, month := mo,
    day := if 3 ≤ t.idx then d else 0,
    hour := if 4 ≤ t.idx then h else 0,
    minute := if 5 ≤ t.idx then mi else 0,
    second := if 6 ≤ t.idx then s else 0,
    positive := true, tz := tzv }

/-! ## Theorems -/

/-- C10: For all inputs x, a, b, isBetween(x, a, b) returns true exactly
when compare(a, x) <= 0 and compare(x, b) <= 0, regardless of whether
a <= b holds; in particular the result is not symmetric in a and b. -/
theorem claim_C10_is_between :
    (∀ x a b : Int, datetime_is_between x a b = true ↔ a ≤ x ∧ x ≤ b) ∧
    datetime_is_between 2 1 3 = true ∧ datetime_is_between 2 3 1 = false := by
  refine ⟨fun x a b => ?_, by decide, by decide⟩
  simp [datetime_is_between]

/-- C4: The leap-year predicate returns true exactly when the year is
divisible by 4 and (not divisible by 100 or divisible by 400); daysInYear
returns 366 exactly for leap years and 365 otherwise; and for every year,
the twelve month lengths match the Gregorian table with February adjusted
by leap status. -/
theorem claim_C4_calendar_rules :
    (∀ y : Int,
      datetime_is_leap_year y = true ↔ y % 4 = 0 ∧ (y % 100 ≠ 0 ∨ y % 400 = 0)) ∧
    (∀ y : Int,
      datetime_days_in_year y = if datetime_is_leap_year y then 366 else 365) ∧
    (∀ y : Int, datetime_days_in_year y = 366 ↔ datetime_is_leap_year y = true) ∧
    (∀ y : Int,
      [datetime_days_in_month y 1, datetime_days_in_month y 2,
       datetime_days_in_month y 3, datetime_days_in_month y 4,
       datetime_days_in_month y 5, datetime_days_in_month y 6,
       datetime_days_in_month y 7, datetime_days_in_month y 8,
       datetime_days_in_month y 9, datetime_days_in_month y 10,
       datetime_days_in_month y 11, datetime_days_in_month y 12] =
      [31, if datetime_is_leap_year y then 29 else 28,
       31, 30, 31, 30, 31, 31, 30, 31, 30, 31]) := by
  have hdim : ∀ y : Int,
      [datetime_days_in_month y 1, datetime_days_in_month y 2,
       datetime_days_in_month y 3, datetime_days_in_month y 4,
       datetime_days_in_month y 5, datetime_days_in_month y 6,
       datetime_days_in_month y 7, datetime_days_in_month y 8,
       datetime_days_in_month y 9, datetime_days_in_month y 10,
       datetime_days_in_month y 11, datetime_days_in_month y 12] =
      [31, if datetime_is_leap_year y then 29 else 28,
       31, 30, 31, 30, 31, 31, 30, 31, 30, 31] := by
    intro y
    cases h : datetime_is_leap_year y <;> norm_num [datetime_days_in_month, h]
  have hyear : ∀ y : Int,
      datetime_days_in_year y = if datetime_is_leap_year y then 366 else 365 := by
    intro y
    have := hdim y
    simp only [List.cons.injEq] at this
    unfold datetime_days_in_year
    rcases this with ⟨h1, h2, h3, h4, h5, h6, h7, h8, h9, h10, h11, h12, -⟩
    rw [h1, h2, h3, h4, h5, h6, h7, h8, h9, h10, h11, h12]
    cases datetime_is_leap_year y <;> norm_num
  refine ⟨fun y => ?_, hyear, fun y => ?_, hdim⟩
  · simp [datetime_is_leap_year]
  · rw [hyear y]
    cases datetime_is_leap_year y <;> simp

/-- C5: Descriptor construction fails with InvalidType exactly when from >
to in the field ordering, or when mode is Relative and the range starts in
the calendar group and ends in the clock group, or when fracsecDigits is
nonzero and to is not Second; in particular a Relative descriptor with
from = Month, to = Day is rejected. -/
theorem claim_C5_set_type :
    (∀ (dt : DateTime) (mode : Mode) (f t : Field) (fs : Int),
      (∃ e, datetime_set_type dt mode f t fs = .error e ∧ e.kind = .invalidType) ↔
        (t.idx < f.idx ∨
          (mode = .relative ∧ datetime_in_interval_year_month f = true ∧
            datetime_in_interval_day_second t = true) ∨
          (fs ≠ 0 ∧ t ≠ .second))) ∧
    (∀ dt : DateTime, ∃ e, datetime_set_type dt .relative .month .day 0 = .error e ∧
      e.kind = .invalidType) := by
  have hgrp : ∀ f t : Field, ¬ (t.idx < f.idx) →
      (sameGroup f t = false ↔
        (datetime_in_interval_year_month f = true ∧
          datetime_in_interval_day_second t = true)) := by
    decide
  constructor
  · intro dt mode f t fs
    unfold datetime_set_type
    split_ifs with h1 h2 h3
    · simp only [Except.error.injEq]
      constructor
      · intro _; exact Or.inl h1
      · intro _; exact ⟨_, rfl, rfl⟩
    · rcases h2 with ⟨hm, hs⟩
      simp only [Except.error.injEq]
      constructor
      · intro _
        refine Or.inr (Or.inl ⟨hm, ?_⟩)
        exact (hgrp f t h1).mp (by revert hs; cases sameGroup f t <;> simp)
      · intro _; exact ⟨_, rfl, rfl⟩
    · simp only [Except.error.injEq]
      constructor
      · intro _; exact Or.inr (Or.inr h3)
      · intro _; exact ⟨_, rfl, rfl⟩
    · simp only [reduceCtorEq, false_and, exists_false, false_iff]
      push_neg at h2 h3
      intro hc
      rcases hc with hc | ⟨hm, hym, hds⟩ | hc
      · exact h1 hc
      · have := h2 hm
        have : sameGroup f t = false := (hgrp f t h1).mpr ⟨hym, hds⟩
        simp_all
      · rcases hc with ⟨hfs, hts⟩
        exact hts (h3 hfs)
  · intro dt
    exact ⟨_, rfl, rfl⟩

/-- C6: For every value and every field setter call: the setter fails with
OutOfRange exactly when the raw input violates the calendar bounds (month in
[1,12]; day in [1, daysInMonth(year,month)]; hour in [0,23]; minute in
[0,59]; second in [0,60); year nonzero for Absolute mode), fails with
PrecisionNotIncluded exactly when the bound holds but the field lies outside
the value's [from,to] range, and on success the result is the input value
with only that stored field replaced. -/
theorem claim_C6_field_setters :
    (∀ (dt : DateTime) (raw : Int),
      ((∃ m, datetime_set_year dt raw = .error ⟨.fieldOutOfRange, m⟩) ↔
        (dt.mode = .absolute ∧ raw = 0)) ∧
      ((∃ m, datetime_set_year dt raw = .error ⟨.precisionNotIncluded, m⟩) ↔
        (¬ (dt.mode = .absolute ∧ raw = 0) ∧ fieldInRange dt .year = false)) ∧
      ((∃ dt2, datetime_set_year dt raw = .ok dt2) ↔
        (¬ (dt.mode = .absolute ∧ raw = 0) ∧ fieldInRange dt .year = true)) ∧
      (datetime_set_year dt raw = .ok { dt with year := raw } ∨
        ∃ e, datetime_set_year dt raw = .error e)) ∧
    (∀ (dt : DateTime) (raw : Int),
      ((∃ m, datetime_set_month dt raw = .error ⟨.fieldOutOfRange, m⟩) ↔
        ¬ (1 ≤ raw ∧ raw ≤ 12)) ∧
      ((∃ m, datetime_set_month dt raw = .error ⟨.precisionNotIncluded, m⟩) ↔
        ((1 ≤ raw ∧ raw ≤ 12) ∧ fieldInRange dt .month = false)) ∧
      ((∃ dt2, datetime_set_month dt raw = .ok dt2) ↔
        ((1 ≤ raw ∧ raw ≤ 12) ∧ fieldInRange dt .month = true)) ∧
      (datetime_set_month dt raw = .ok { dt with month := raw } ∨
        ∃ e, datetime_set_month dt raw = .error e)) ∧
    (∀ (dt : DateTime) (raw : Int),
      ((∃ m, datetime_set_day dt raw = .error ⟨.fieldOutOfRange, m⟩) ↔
        ¬ (1 ≤ raw ∧ raw ≤ datetime_days_in_month dt.year dt.month)) ∧
      ((∃ m, datetime_set_day dt raw = .error ⟨.precisionNotIncluded, m⟩) ↔
        ((1 ≤ raw ∧ raw ≤ datetime_days_in_month dt.year dt.month) ∧
          fieldInRange dt .day = false)) ∧
      ((∃ dt2, datetime_set_day dt raw = .ok dt2) ↔
        ((1 ≤ raw ∧ raw ≤ datetime_days_in_month dt.year dt.month) ∧
          fieldInRange dt .day = true)) ∧
      (datetime_set_day dt raw = .ok { dt with day := raw } ∨
        ∃ e, datetime_set_day dt raw = .error e)) ∧
    (∀ (dt : DateTime) (raw : Int),
      ((∃ m, datetime_set_hour dt raw = .error ⟨.fieldOutOfRange, m⟩) ↔
        ¬ (0 ≤ raw ∧ raw ≤ 23)) ∧
      ((∃ m, datetime_set_hour dt raw = .error ⟨.precisionNotIncluded, m⟩) ↔
        ((0 ≤ raw ∧ raw ≤ 23) ∧ fieldInRange dt .hour = false)) ∧
      ((∃ dt2, datetime_set_hour dt raw = .ok dt2) ↔
        ((0 ≤ raw ∧ raw ≤ 23) ∧ fieldInRange dt .hour = true)) ∧
      (datetime_set_hour dt raw = .ok { dt with hour := raw } ∨
        ∃ e, datetime_set_hour dt raw = .error e)) ∧
    (∀ (dt : DateTime) (raw : Int),
      ((∃ m, datetime_set_minute dt raw = .error ⟨.fieldOutOfRange, m⟩) ↔
        ¬ (0 ≤ raw ∧ raw ≤ 59)) ∧
      ((∃ m, datetime_set_minute dt raw = .error ⟨.precisionNotIncluded, m⟩) ↔
        ((0 ≤ raw ∧ raw ≤ 59) ∧ fieldInRange dt .minute = false)) ∧
      ((∃ dt2, datetime_set_minute dt raw = .ok dt2) ↔
        ((0 ≤ raw ∧ raw ≤ 59) ∧ fieldInRange dt .minute = true)) ∧
      (datetime_set_minute dt raw = .ok { dt with minute := raw } ∨
        ∃ e, datetime_set_minute dt raw = .error e)) ∧
    (∀ (dt : DateTime) (raw : Rat),
      ((∃ m, datetime_set_second dt raw = .error ⟨.fieldOutOfRange, m⟩) ↔
        ¬ (0 ≤ raw ∧ raw < 60)) ∧
      ((∃ m, datetime_set_second dt raw = .error ⟨.precisionNotIncluded, m⟩) ↔
        ((0 ≤ raw ∧ raw < 60) ∧ fieldInRange dt .second = false)) ∧
      ((∃ dt2, datetime_set_second dt raw = .ok dt2) ↔
        ((0 ≤ raw ∧ raw < 60) ∧ fieldInRange dt .second = true)) ∧
      (datetime_set_second dt raw = .ok { dt with second := raw } ∨
        ∃ e, datetime_set_second dt raw = .error e)) := by
  refine ⟨fun dt raw => ?_, fun dt raw => ?_, fun dt raw => ?_,
    fun dt raw => ?_, fun dt raw => ?_, fun dt raw => ?_⟩ <;>
  · refine ⟨?_, ?_, ?_, ?_⟩ <;>
    · simp only [datetime_set_year, datetime_check_year, datetime_set_month,
        datetime_check_month, datetime_set_day, datetime_check_day,
        datetime_set_hour, datetime_check_hour, datetime_set_minute,
        datetime_check_minute, datetime_set_second, datetime_check_second,
        Except.map]
      split_ifs <;> simp_all

/-- C7 counterexample: the library does maintain a shared mutable error
slot.  The zero-argument query datetime_error_code reports different
outcomes after different earlier calls (5 after datetime_error 5, 0 after
datetime_clear_error), so a call's reported outcome is not a function of
that call's arguments alone. -/
theorem claim_C7_counterexample :
    datetime_error_code (runErrCalls [ErrCall.report 5 "boom"]) = 5 ∧
    datetime_error_code (runErrCalls [ErrCall.clear]) = 0 ∧
    datetime_error_code (runErrCalls [ErrCall.report 5 "boom"]) ≠
      datetime_error_code (runErrCalls [ErrCall.clear]) ∧
    datetime_error_msg (runErrCalls [ErrCall.report 5 "boom"]) = "boom" := by
  refine ⟨rfl, rfl, by decide, rfl⟩

/-- C7 (amended): every fallible operation does return its (kind, message)
outcome directly to the caller (the operations in this development return
Except values), and in addition the library keeps one shared error slot:
datetime_error stores the reported (code, message) pair and hands the code
back to its caller, datetime_error_code and datetime_error_msg read whatever
was stored last, and datetime_clear_error resets the slot to (0, empty), so
the slot queries depend on the history of earlier calls. -/
theorem claim_C7_amended_error_slot :
    (∀ (code : Int) (msg : String) (s : ErrorState),
      (datetime_error code msg s).1 = code ∧
      datetime_error_code (datetime_error code msg s).2 = code ∧
      datetime_error_msg (datetime_error code msg s).2 = msg) ∧
    (∀ s : ErrorState, datetime_error_code (datetime_clear_error s) = 0 ∧
      datetime_error_msg (datetime_clear_error s) = "") := by
  exact ⟨fun code msg s => ⟨rfl, rfl, rfl⟩, fun s => ⟨rfl, rfl⟩⟩

/-- C8 counterexample: the sign mutators cannot fail on Absolute values.
The header declares datetime_set_positive, datetime_set_negative and
datetime_invert_sign as void, and on a concrete Absolute value they
complete and update the sign flag instead of failing with
InvalidOperation. -/
theorem claim_C8_counterexample :
    datetime_is_absolute ({} : DateTime) = true ∧
    datetime_set_negative ({} : DateTime) =
      { ({} : DateTime) with positive := false } ∧
    datetime_invert_sign ({} : DateTime) =
      { ({} : DateTime) with positive := false } ∧
    datetime_set_positive { ({} : DateTime) with positive := false } =
      ({} : DateTime) := by
  refine ⟨rfl, rfl, rfl, rfl⟩

/-- C8 (amended): the sign queries isPositive and isNegative apply only to
Relative values and fail with InvalidOperation exactly on Absolute values,
while the sign mutators setPositive, setNegative and invertSign are void
operations that never fail: they set or flip the stored sign flag on any
value, Absolute included. -/
theorem claim_C8_amended_sign :
    (∀ dt : DateTime,
      (∃ m, datetime_is_positive dt = .error ⟨.invalidOperation, m⟩) ↔
        datetime_is_absolute dt = true) ∧
    (∀ dt : DateTime,
      (∃ m, datetime_is_negative dt = .error ⟨.invalidOperation, m⟩) ↔
        datetime_is_absolute dt = true) ∧
    (∀ dt : DateTime, datetime_is_relative dt = true →
      datetime_is_positive dt = .ok dt.positive ∧
      datetime_is_negative dt = .ok (! dt.positive)) ∧
    (∀ dt : DateTime,
      datetime_set_positive dt = { dt with positive := true } ∧
      datetime_set_negative dt = { dt with positive := false } ∧
      datetime_invert_sign dt = { dt with positive := ! dt.positive }) := by
  refine ⟨fun dt => ?_, fun dt => ?_, fun dt => ?_, fun dt => ⟨rfl, rfl, rfl⟩⟩
  · simp only [datetime_is_positive, datetime_is_absolute]
    cases h : dt.mode <;> simp [h]
  · simp only [datetime_is_negative, datetime_is_absolute]
    cases h : dt.mode <;> simp [h]
  · intro h
    simp only [datetime_is_relative, decide_eq_true_eq] at h
    simp [datetime_is_positive, datetime_is_negative, h]

/-- C8 amended witness: concrete applications of the amended sign theorem.
On a concrete Absolute value isPositive fails with InvalidOperation, and on
a concrete Relative value it returns the sign. -/
theorem claim_C8_amended_sign_witness :
    (∃ m, datetime_is_positive ({} : DateTime) = .error ⟨.invalidOperation, m⟩) ∧
    (datetime_is_positive { ({} : DateTime) with mode := .relative } =
      .ok true) := by
  refine ⟨(claim_C8_amended_sign.1 {}).mpr (by decide), ?_⟩
  exact (claim_C8_amended_sign.2.2.1 _ (by decide)).1

/-- Evaluation lemma: incrementing an absolute Year..Second value that sits
at midnight by a +1 day delta (carried in a Day..Second relative value)
normalizes day + 1 through the calendar-correct day carry. -/
theorem incr_one_day (y mo d : Int) :
    datetime_increment { year := y, month := mo, day := d }
      { mode := .relative, fromField := .day, toField := .second, day := 1 } =
    .ok { year := (normalizeDays y mo (d + 1)).1,
          month := (normalizeDays y mo (d + 1)).2.1,
          day := (normalizeDays y mo (d + 1)).2.2 } := by
  have hc : ⌊((0:Rat) + 86400) / 86400⌋ = 1 := by norm_num
  simp only [datetime_increment, absClockSod, relClockSeconds, fieldInRange,
    datetime_is_between, Field.idx, datetime_in_interval_day_second,
    datetime_in_interval_year_month]
  norm_num [hc]

/-- C1: Incrementing an Absolute value carrying 2024-01-31 by a +1 day
relative delta with Day..Second range yields 2024-02-01; from 2024-02-28
(leap year) it yields 2024-02-29; from 2023-02-28 (non-leap year) it yields
2023-03-01.  (A value holding year 2024 necessarily carries the Year and
Month fields, so the base range is Year..Second and the Day..Second range of
the claim is the delta's.) -/
theorem claim_C1_carry_correct :
    datetime_increment { year := 2024, month := 1, day := 31 }
      { mode := .relative, fromField := .day, toField := .second, day := 1 } =
      .ok { year := 2024, month := 2, day := 1 } ∧
    datetime_increment { year := 2024, month := 2, day := 28 }
      { mode := .relative, fromField := .day, toField := .second, day := 1 } =
      .ok { year := 2024, month := 2, day := 29 } ∧
    datetime_increment { year := 2023, month := 2, day := 28 }
      { mode := .relative, fromField := .day, toField := .second, day := 1 } =
      .ok { year := 2023, month := 3, day := 1 } := by
  refine ⟨?_, ?_, ?_⟩ <;>
  · rw [incr_one_day]
    decide

/-! ### Day-number lemmas: the carry loop computes a day-number-preserving
normal form -/

theorem days_in_month_bounds (y mo : Int) :
    28 ≤ datetime_days_in_month y mo ∧ datetime_days_in_month y mo ≤ 31 := by
  unfold datetime_days_in_month
  split_ifs <;> norm_num

theorem days_in_year_eq (y : Int) :
    datetime_days_in_year y = if datetime_is_leap_year y then 366 else 365 := by
  cases h : datetime_is_leap_year y <;>
    norm_num [datetime_days_in_year, datetime_days_in_month, h]

theorem is_leap_iff (y : Int) :
    datetime_is_leap_year y = true ↔ y % 4 = 0 ∧ (y % 100 ≠ 0 ∨ y % 400 = 0) := by
  simp [datetime_is_leap_year]

theorem dby_step (y : Int) :
    daysBeforeYear (y + 1) = daysBeforeYear y + datetime_days_in_year y := by
  have h4 : y / 4 - (y - 1) / 4 = if (4:Int) ∣ y then 1 else 0 := by
    simp only [Int.dvd_iff_emod_eq_zero]
    split_ifs <;> omega
  have h100 : y / 100 - (y - 1) / 100 = if (100:Int) ∣ y then 1 else 0 := by
    simp only [Int.dvd_iff_emod_eq_zero]
    split_ifs <;> omega
  have h400 : y / 400 - (y - 1) / 400 = if (400:Int) ∣ y then 1 else 0 := by
    simp only [Int.dvd_iff_emod_eq_zero]
    split_ifs <;> omega
  have hleap := is_leap_iff y
  rw [days_in_year_eq]
  unfold daysBeforeYear
  simp only [add_sub_cancel_right]
  simp only [Int.dvd_iff_emod_eq_zero] at h4 h100 h400
  split_ifs at h4 h100 h400 with hd4 hd100 hd400 <;>
    cases hcl : datetime_is_leap_year y <;> rw [hcl] at hleap <;> simp_all <;> omega

theorem dbm_step (y mo : Int) (h1 : 1 ≤ mo) (h2 : mo ≤ 12) :
    daysBeforeMonth y (mo + 1) =
      daysBeforeMonth y mo + datetime_days_in_month y mo := by
  interval_cases mo <;> cases h : datetime_is_leap_year y <;>
    norm_num [daysBeforeMonth, datetime_days_in_month, h]

theorem dbm_year_end (y : Int) :
    daysBeforeMonth y 13 = datetime_days_in_year y := by
  cases h : datetime_is_leap_year y <;>
    norm_num [daysBeforeMonth, datetime_days_in_year, datetime_days_in_month, h]

theorem dbm_plus_dim (y : Int) :
    daysBeforeMonth y 12 + datetime_days_in_month y 12 =
      datetime_days_in_year y := by
  have h := dbm_step y 12 (by norm_num) (by norm_num)
  have h13 : (12:ℤ) + 1 = 13 := by norm_num
  rw [h13] at h
  rw [← h, dbm_year_end]

theorem dayNum_step12 (y d : Int) :
    dayNum (y + 1) 1 (d - datetime_days_in_month y 12) = dayNum y 12 d := by
  unfold dayNum
  rw [dby_step]
  have hb := dbm_plus_dim y
  have hb1 : daysBeforeMonth (y + 1) 1 = 0 := by norm_num [daysBeforeMonth]
  omega

theorem dayNum_step_mid (y mo d : Int) (h1 : 1 ≤ mo) (h2 : mo ≤ 11) :
    dayNum y (mo + 1) (d - datetime_days_in_month y mo) = dayNum y mo d := by
  unfold dayNum
  have := dbm_step y mo h1 (by omega)
  omega

theorem dayNum_down1 (y d : Int) :
    dayNum (y - 1) 12 (d + datetime_days_in_month (y - 1) 12) =
      dayNum y 1 d := by
  unfold dayNum
  have hstep := dby_step (y - 1)
  have hb := dbm_plus_dim (y - 1)
  have hb1 : daysBeforeMonth y 1 = 0 := by norm_num [daysBeforeMonth]
  have hy : y - 1 + 1 = y := by omega
  rw [hy] at hstep
  omega

theorem dayNum_down_mid (y mo d : Int) (h1 : 2 ≤ mo) (h2 : mo ≤ 12) :
    dayNum y (mo - 1) (d + datetime_days_in_month y (mo - 1)) =
      dayNum y mo d := by
  unfold dayNum
  have := dbm_step y (mo - 1) (by omega) (by omega)
  have hmo : mo - 1 + 1 = mo := by omega
  rw [hmo] at this
  omega

theorem normUpAux_spec (f : Nat) :
    ∀ y mo d : Int, 1 ≤ mo → mo ≤ 12 → d ≤ 28 * (f : Int) + 28 →
      dayNum (normUpAux f y mo d).1 (normUpAux f y mo d).2.1
        (normUpAux f y mo d).2.2 = dayNum y mo d ∧
      1 ≤ (normUpAux f y mo d).2.1 ∧ (normUpAux f y mo d).2.1 ≤ 12 ∧
      (normUpAux f y mo d).2.2 ≤
        datetime_days_in_month (normUpAux f y mo d).1 (normUpAux f y mo d).2.1 ∧
      (1 ≤ d → 1 ≤ (normUpAux f y mo d).2.2) := by
  induction f with
  | zero =>
    intro y mo d h1 h2 hd
    have hb := days_in_month_bounds y mo
    refine ⟨rfl, h1, h2, ?_, fun h => h⟩
    show d ≤ datetime_days_in_month y mo
    omega
  | succ n ih =>
    intro y mo d h1 h2 hd
    simp only [normUpAux]
    split_ifs with hle h12
    · exact ⟨rfl, h1, h2, hle, fun h => h⟩
    · subst h12
      have hb := days_in_month_bounds y 12
      have hrec := ih (y + 1) 1 (d - datetime_days_in_month y 12)
        (by norm_num) (by norm_num) (by omega)
      have hstep := dayNum_step12 y d
      refine ⟨by rw [hrec.1, hstep], hrec.2.1, hrec.2.2.1, hrec.2.2.2.1, ?_⟩
      intro _
      exact hrec.2.2.2.2 (by omega)
    · have hb := days_in_month_bounds y mo
      have hrec := ih y (mo + 1) (d - datetime_days_in_month y mo)
        (by omega) (by omega) (by omega)
      have hstep := dayNum_step_mid y mo d h1 (by omega)
      refine ⟨by rw [hrec.1, hstep], hrec.2.1, hrec.2.2.1, hrec.2.2.2.1, ?_⟩
      intro _
      exact hrec.2.2.2.2 (by omega)

theorem normDownAux_spec (f : Nat) :
    ∀ y mo d : Int, 1 ≤ mo → mo ≤ 12 → 1 - d ≤ 28 * (f : Int) →
      dayNum (normDownAux f y mo d).1 (normDownAux f y mo d).2.1
        (normDownAux f y mo d).2.2 = dayNum y mo d ∧
      1 ≤ (normDownAux f y mo d).2.1 ∧ (normDownAux f y mo d).2.1 ≤ 12 ∧
      1 ≤ (normDownAux f y mo d).2.2 := by
  induction f with
  | zero =>
    intro y mo d h1 h2 hd
    refine ⟨rfl, h1, h2, ?_⟩
    show 1 ≤ d
    omega
  | succ n ih =>
    intro y mo d h1 h2 hd
    simp only [normDownAux]
    split_ifs with hge hm1
    · exact ⟨rfl, h1, h2, hge⟩
    · subst hm1
      have hb := days_in_month_bounds (y - 1) 12
      have hrec := ih (y - 1) 12 (d + datetime_days_in_month (y - 1) 12)
        (by norm_num) (by norm_num) (by omega)
      have hstep := dayNum_down1 y d
      exact ⟨by rw [hrec.1, hstep], hrec.2.1, hrec.2.2.1, hrec.2.2.2⟩
    · have hb := days_in_month_bounds y (mo - 1)
      have hrec := ih y (mo - 1) (d + datetime_days_in_month y (mo - 1))
        (by omega) (by omega) (by omega)
      have hstep := dayNum_down_mid y mo d (by omega) h2
      exact ⟨by rw [hrec.1, hstep], hrec.2.1, hrec.2.2.1, hrec.2.2.2⟩

theorem normalizeDays_spec (y mo d : Int) (h1 : 1 ≤ mo) (h2 : mo ≤ 12) :
    dayNum (normalizeDays y mo d).1 (normalizeDays y mo d).2.1
      (normalizeDays y mo d).2.2 = dayNum y mo d ∧
    1 ≤ (normalizeDays y mo d).2.1 ∧ (normalizeDays y mo d).2.1 ≤ 12 ∧
    1 ≤ (normalizeDays y mo d).2.2 ∧
    (normalizeDays y mo d).2.2 ≤
      datetime_days_in_month (normalizeDays y mo d).1
        (normalizeDays y mo d).2.1 := by
  unfold normalizeDays
  have hdn := normDownAux_spec (1 - d).toNat y mo d h1 h2 (by
    rcases le_or_lt 1 d with h | h
    · have : ((1 - d).toNat : Int) = 0 ∨ 0 ≤ ((1 - d).toNat : Int) := by omega
      omega
    · rw [Int.toNat_of_nonneg (by omega)]; omega)
  set dn := normDownAux (1 - d).toNat y mo d with hdndef
  have hup := normUpAux_spec dn.2.2.toNat dn.1 dn.2.1 dn.2.2 hdn.2.1 hdn.2.2.1
    (by rw [Int.toNat_of_nonneg (by omega)]; omega)
  refine ⟨by rw [hup.1, hdn.1], hup.2.1, hup.2.2.1, ?_, hup.2.2.2.1⟩
  exact hup.2.2.2.2 hdn.2.2.2

theorem days_in_year_ge (y : Int) : 365 ≤ datetime_days_in_year y := by
  rw [days_in_year_eq]
  split_ifs <;> norm_num

theorem dby_mono {a b : Int} (h : a ≤ b) :
    daysBeforeYear a ≤ daysBeforeYear b :=
  @Int.le_induction (fun z => daysBeforeYear a ≤ daysBeforeYear z) a
    (le_refl _)
    (fun n _ ih => by
      show daysBeforeYear a ≤ daysBeforeYear (n + 1)
      rw [dby_step]
      have := days_in_year_ge n
      omega)
    b h

theorem dbm_bounds (y mo : Int) (h1 : 1 ≤ mo) (h2 : mo ≤ 12) :
    0 ≤ daysBeforeMonth y mo ∧
    daysBeforeMonth y mo + datetime_days_in_month y mo ≤
      datetime_days_in_year y := by
  interval_cases mo <;> cases h : datetime_is_leap_year y <;>
    norm_num [daysBeforeMonth, datetime_days_in_month, datetime_days_in_year, h]

theorem dayNum_year_range (y mo d : Int) (h1 : 1 ≤ mo) (h2 : mo ≤ 12)
    (h3 : 1 ≤ d) (h4 : d ≤ datetime_days_in_month y mo) :
    daysBeforeYear y ≤ dayNum y mo d ∧
    dayNum y mo d < daysBeforeYear (y + 1) := by
  have hb := dbm_bounds y mo h1 h2
  have hstep := dby_step y
  unfold dayNum
  omega

theorem dbm_mono (y : Int) {a b : Int} (h1 : 1 ≤ a) (h : a ≤ b) :
    b ≤ 13 → daysBeforeMonth y a ≤ daysBeforeMonth y b :=
  @Int.le_induction
    (fun z => z ≤ 13 → daysBeforeMonth y a ≤ daysBeforeMonth y z) a
    (fun _ => le_refl _)
    (fun n hn ih => by
      intro hb
      show daysBeforeMonth y a ≤ daysBeforeMonth y (n + 1)
      have hstep := dbm_step y n (by omega) (by omega)
      have hd := days_in_month_bounds y n
      have := ih (by omega)
      omega)
    b h

theorem dbm_sep (y mo mo' : Int) (h1 : 1 ≤ mo) (hlt : mo < mo')
    (h2' : mo' ≤ 12) :
    daysBeforeMonth y mo + datetime_days_in_month y mo ≤
      daysBeforeMonth y mo' := by
  have hstep := dbm_step y mo h1 (by omega)
  have := dbm_mono y (a := mo + 1) (b := mo') (by omega) (by omega) (by omega)
  omega

theorem month_day_inj (y mo d mo' d' : Int)
    (h1 : 1 ≤ mo) (h2 : mo ≤ 12) (h3 : 1 ≤ d)
    (h4 : d ≤ datetime_days_in_month y mo)
    (h1' : 1 ≤ mo') (h2' : mo' ≤ 12) (h3' : 1 ≤ d')
    (h4' : d' ≤ datetime_days_in_month y mo')
    (heq : daysBeforeMonth y mo + d = daysBeforeMonth y mo' + d') :
    mo = mo' ∧ d = d' := by
  rcases lt_trichotomy mo mo' with h | h | h
  · have := dbm_sep y mo mo' h1 h h2'
    omega
  · subst h
    exact ⟨rfl, by omega⟩
  · have := dbm_sep y mo' mo h1' h h2
    omega

theorem dayNum_inj (y mo d y' mo' d' : Int)
    (h1 : 1 ≤ mo) (h2 : mo ≤ 12) (h3 : 1 ≤ d)
    (h4 : d ≤ datetime_days_in_month y mo)
    (h1' : 1 ≤ mo') (h2' : mo' ≤ 12) (h3' : 1 ≤ d')
    (h4' : d' ≤ datetime_days_in_month y' mo')
    (heq : dayNum y mo d = dayNum y' mo' d') :
    y = y' ∧ mo = mo' ∧ d = d' := by
  have hr := dayNum_year_range y mo d h1 h2 h3 h4
  have hr' := dayNum_year_range y' mo' d' h1' h2' h3' h4'
  have hy : y = y' := by
    rcases lt_trichotomy y y' with h | h | h
    · have := dby_mono (by omega : y + 1 ≤ y')
      omega
    · exact h
    · have := dby_mono (by omega : y' + 1 ≤ y)
      omega
  subst hy
  have hmd : daysBeforeMonth y mo + d = daysBeforeMonth y mo' + d' := by
    unfold dayNum at heq
    omega
  have hm := month_day_inj y mo d mo' d' h1 h2 h3 h4 h1' h2' h3' h4' hmd
  exact ⟨rfl, hm.1, hm.2⟩

/-! ### Clock decomposition lemmas over Rat -/

theorem floor_rem_bounds (T u : Rat) (hu : 0 < u) :
    0 ≤ T - u * (⌊T / u⌋ : Int) ∧ T - u * (⌊T / u⌋ : Int) < u := by
  have hfr : T - u * (⌊T / u⌋ : Int) = u * Int.fract (T / u) := by
    unfold Int.fract
    field_simp
  rw [hfr]
  constructor
  · exact mul_nonneg (le_of_lt hu) (Int.fract_nonneg _)
  · have := Int.fract_lt_one (T / u)
    calc u * Int.fract (T / u) < u * 1 := by
          exact mul_lt_mul_of_pos_left this hu
    _ = u := mul_one u

theorem recompose_sod (sod : Rat) :
    3600 * ((⌊sod / 3600⌋ : Int) : Rat) +
      60 * ((⌊(sod - 3600 * ((⌊sod / 3600⌋ : Int) : Rat)) / 60⌋ : Int) : Rat) +
      ((sod - 3600 * ((⌊sod / 3600⌋ : Int) : Rat)) -
        60 * ((⌊(sod - 3600 * ((⌊sod / 3600⌋ : Int) : Rat)) / 60⌋ : Int) : Rat)) =
    sod := by
  ring

theorem dayNum_add (y mo d c : Int) :
    dayNum y mo (d + c) = dayNum y mo d + c := by
  unfold dayNum
  ring

theorem in_ds_iff (f : Field) :
    datetime_in_interval_day_second f = true ↔ 3 ≤ f.idx ∧ f.idx ≤ 6 := by
  cases f <;> simp [datetime_in_interval_day_second, datetime_is_between, Field.idx]

theorem ym_of_ds (f : Field) (h : datetime_in_interval_day_second f = true) :
    datetime_in_interval_year_month f = false := by
  revert h
  cases f <;> decide

/-- Every field is inside a Year..Second range. -/
theorem fieldInRange_full (v : DateTime) (hf : v.fromField = .year)
    (ht : v.toField = .second) (g : Field) : fieldInRange v g = true := by
  cases g <;>
    simp [fieldInRange, datetime_is_between, hf, ht, Field.idx]

theorem zeroOutside_full (v : DateTime) (hf : v.fromField = .year)
    (ht : v.toField = .second) : zeroOutside v = v := by
  unfold zeroOutside
  rw [fieldInRange_full v hf ht .year, fieldInRange_full v hf ht .month,
    fieldInRange_full v hf ht .day, fieldInRange_full v hf ht .hour,
    fieldInRange_full v hf ht .minute, fieldInRange_full v hf ht .second]
  simp

/-- Increment by a clock-group delta on an absolute Year..Second base:
the call succeeds, adds the delta's signed seconds to the chronological
content, normalizes every clock field into its calendar bound, and leaves
the descriptor, sign and timezone untouched. -/
theorem increment_clock_spec (src incr : DateTime)
    (hsm : src.mode = .absolute) (him : incr.mode = .relative)
    (hfrom : src.fromField = .year) (hto : src.toField = .second)
    (hf : datetime_in_interval_day_second incr.fromField = true)
    (ht : datetime_in_interval_day_second incr.toField = true)
    (hmo : 1 ≤ src.month) (hmo2 : src.month ≤ 12) :
    ∃ r, datetime_increment src incr = .ok r ∧
      toSeconds r = toSeconds src + relClockSeconds incr ∧
      r.mode = src.mode ∧ r.fromField = src.fromField ∧
      r.toField = src.toField ∧ r.fracsec = src.fracsec ∧
      r.positive = src.positive ∧ r.tz = src.tz ∧
      1 ≤ r.month ∧ r.month ≤ 12 ∧
      1 ≤ r.day ∧ r.day ≤ datetime_days_in_month r.year r.month ∧
      0 ≤ r.hour ∧ r.hour ≤ 23 ∧ 0 ≤ r.minute ∧ r.minute ≤ 59 ∧
      0 ≤ r.second ∧ r.second < 60 := by
  have hfi := in_ds_iff incr.fromField
  have hti := in_ds_iff incr.toField
  rw [hf] at hfi
  rw [ht] at hti
  have hfi' := hfi.mp rfl
  have hti' := hti.mp rfl
  have hallsrc := fieldInRange_full src hfrom hto
  have hsub : src.fromField.idx ≤ incr.fromField.idx ∧
      incr.toField.idx ≤ src.toField.idx := by
    rw [hfrom, hto]
    have e1 : Field.year.idx = 1 := rfl
    have e2 : Field.second.idx = 6 := rfl
    omega
  unfold datetime_increment
  rw [if_neg (by simp [hsm, him]), if_neg (not_not_intro hsub),
    if_neg (by
      rw [ym_of_ds incr.fromField hf]
      simp),
    if_pos ⟨hf, ht⟩, if_neg (by rw [hallsrc .day]; simp)]
  rw [hallsrc .month, hallsrc .hour, hallsrc .minute, hallsrc .second]
  simp only [if_true]
  set T : Rat := absClockSod src + relClockSeconds incr with hT
  set c : Int := ⌊T / 86400⌋ with hc
  set sod : Rat := T - 86400 * (c : Rat) with hsod
  set n := normalizeDays src.year src.month (src.day + c) with hn
  set h : Int := ⌊sod / 3600⌋ with hh
  set r1 : Rat := sod - 3600 * (h : Rat) with hr1
  set mi : Int := ⌊r1 / 60⌋ with hmi
  set s : Rat := r1 - 60 * (mi : Rat) with hs
  refine ⟨_, rfl, ?_, rfl, rfl, rfl, rfl, rfl, rfl, ?_⟩
  · -- chronological content
    have hnspec := normalizeDays_spec src.year src.month (src.day + c) hmo hmo2
    unfold toSeconds
    simp only
    rw [hnspec.1, dayNum_add]
    have hsodrec : 3600 * (h : Rat) + 60 * (mi : Rat) + s = sod := by
      rw [hs, hmi, hr1, hh]
      exact recompose_sod sod
    have habs : absClockSod src =
        3600 * (src.hour : Rat) + 60 * (src.minute : Rat) + src.second := by
      unfold absClockSod
      rw [hallsrc .hour, hallsrc .minute, hallsrc .second]
      simp
    push_cast
    linarith [hsodrec, hsod, hT, habs]
  · -- field bounds
    have hnspec := normalizeDays_spec src.year src.month (src.day + c) hmo hmo2
    have hsodb : 0 ≤ sod ∧ sod < 86400 := by
      rw [hsod, hc]
      exact floor_rem_bounds T 86400 (by norm_num)
    have hr1b : 0 ≤ r1 ∧ r1 < 3600 := by
      rw [hr1, hh]
      exact floor_rem_bounds sod 3600 (by norm_num)
    have hsb : 0 ≤ s ∧ s < 60 := by
      rw [hs, hmi]
      exact floor_rem_bounds r1 60 (by norm_num)
    have hhb : 0 ≤ h ∧ h ≤ 23 := by
      constructor
      · rw [hh]
        exact Int.floor_nonneg.mpr (div_nonneg hsodb.1 (by norm_num))
      · have hlt : h < 24 := by
          rw [hh]
          apply Int.floor_lt.mpr
          push_cast
          rw [div_lt_iff₀ (by norm_num : (0:Rat) < 3600)]
          linarith [hsodb.2]
        omega
    have hmib : 0 ≤ mi ∧ mi ≤ 59 := by
      constructor
      · rw [hmi]
        exact Int.floor_nonneg.mpr (div_nonneg hr1b.1 (by norm_num))
      · have hlt : mi < 60 := by
          rw [hmi]
          apply Int.floor_lt.mpr
          push_cast
          rw [div_lt_iff₀ (by norm_num : (0:Rat) < 60)]
          linarith [hr1b.2]
        omega
    exact ⟨hnspec.2.1, hnspec.2.2.1, hnspec.2.2.2.1, hnspec.2.2.2.2,
      hhb.1, hhb.2, hmib.1, hmib.2, hsb.1, hsb.2⟩

/-! ### Field comparison agrees with chronological order on valid values -/

theorem cmpInt_lt_iff (a b : Int) : cmpInt a b = .lt ↔ a < b := by
  unfold cmpInt
  split_ifs with h1 h2
  · simpa using h1
  · simpa using (by omega : ¬ a < b)
  · simpa using h1

theorem cmpInt_eq_iff (a b : Int) : cmpInt a b = .eq ↔ a = b := by
  unfold cmpInt
  split_ifs with h1 h2
  · simpa using (by omega : ¬ a = b)
  · simpa using h2
  · simpa using (by omega : ¬ a = b)

theorem cmpRat_lt_iff (a b : Rat) : cmpRat a b = .lt ↔ a < b := by
  unfold cmpRat
  split_ifs with h1 h2
  · simpa using h1
  · simpa using (by rw [h2]; exact lt_irrefl b : ¬ a < b)
  · simpa using h1

theorem cmpRat_eq_iff (a b : Rat) : cmpRat a b = .eq ↔ a = b := by
  unfold cmpRat
  split_ifs with h1 h2
  · simpa using ne_of_lt h1
  · simpa using h2
  · have hne : a ≠ b := by
      rcases lt_trichotomy a b with h3 | h3 | h3
      · exact absurd h3 h1
      · exact absurd h3 h2
      · exact ne_of_gt h3
    simpa using hne

theorem then_lt_iff (x y : Ordering) :
    x.then y = .lt ↔ x = .lt ∨ (x = .eq ∧ y = .lt) := by
  cases x <;> simp [Ordering.then]

theorem then_eq_iff (x y : Ordering) :
    x.then y = .eq ↔ x = .eq ∧ y = .eq := by
  cases x <;> simp [Ordering.then]

theorem compareValues_eq_iff (a b : DateTime) :
    compareValues a b = .eq ↔
      (a.year = b.year ∧ a.month = b.month ∧ a.day = b.day ∧
       a.hour = b.hour ∧ a.minute = b.minute ∧ a.second = b.second) := by
  unfold compareValues
  simp [then_eq_iff, cmpInt_eq_iff, cmpRat_eq_iff, and_assoc]

theorem sod_bounds (v : DateTime) (hv : clockValid v) :
    0 ≤ 3600 * (v.hour : Rat) + 60 * (v.minute : Rat) + v.second ∧
    3600 * (v.hour : Rat) + 60 * (v.minute : Rat) + v.second < 86400 := by
  obtain ⟨-, -, -, -, h5, h6, h7, h8, h9, h10⟩ := hv
  have c5 : (0 : Rat) ≤ (v.hour : Rat) := by exact_mod_cast h5
  have c6 : (v.hour : Rat) ≤ 23 := by exact_mod_cast h6
  have c7 : (0 : Rat) ≤ (v.minute : Rat) := by exact_mod_cast h7
  have c8 : (v.minute : Rat) ≤ 59 := by exact_mod_cast h8
  constructor <;> linarith

theorem dayNum_lt_of_fields (a b : DateTime) (ha : clockValid a)
    (hb : clockValid b)
    (h : a.year < b.year ∨
      (a.year = b.year ∧ a.month < b.month) ∨
      (a.year = b.year ∧ a.month = b.month ∧ a.day < b.day)) :
    dayNum a.year a.month a.day < dayNum b.year b.month b.day := by
  obtain ⟨a1, a2, a3, a4, -⟩ := ha
  obtain ⟨b1, b2, b3, b4, -⟩ := hb
  rcases h with h | ⟨hy, h⟩ | ⟨hy, hm, h⟩
  · have h1 := dayNum_year_range a.year a.month a.day a1 a2 a3 a4
    have h2 := dayNum_year_range b.year b.month b.day b1 b2 b3 b4
    have := dby_mono (by omega : a.year + 1 ≤ b.year)
    omega
  · have a4' : a.day ≤ datetime_days_in_month b.year a.month := by
      rw [← hy]
      exact a4
    rw [hy]
    have hsep := dbm_sep b.year a.month b.month a1 h b2
    unfold dayNum
    omega
  · rw [hy, hm]
    unfold dayNum
    omega

theorem toSec_lt_of_compare (a b : DateTime) (ha : clockValid a)
    (hb : clockValid b) (hlt : compareValues a b = .lt) :
    toSeconds a < toSeconds b := by
  have hsa := sod_bounds a ha
  have hsb := sod_bounds b hb
  unfold compareValues at hlt
  simp only [then_lt_iff, cmpInt_lt_iff, cmpInt_eq_iff, cmpRat_lt_iff] at hlt
  unfold toSeconds
  rcases hlt with h | ⟨hy, h | ⟨hm, h | ⟨hd, h | ⟨hh, h | ⟨hmi, h⟩⟩⟩⟩⟩
  · have hdn := dayNum_lt_of_fields a b ha hb (Or.inl h)
    have hc : (dayNum a.year a.month a.day : Rat) + 1 ≤
        (dayNum b.year b.month b.day : Rat) := by exact_mod_cast hdn
    linarith
  · have hdn := dayNum_lt_of_fields a b ha hb (Or.inr (Or.inl ⟨hy, h⟩))
    have hc : (dayNum a.year a.month a.day : Rat) + 1 ≤
        (dayNum b.year b.month b.day : Rat) := by exact_mod_cast hdn
    linarith
  · have hdn := dayNum_lt_of_fields a b ha hb (Or.inr (Or.inr ⟨hy, hm, h⟩))
    have hc : (dayNum a.year a.month a.day : Rat) + 1 ≤
        (dayNum b.year b.month b.day : Rat) := by exact_mod_cast hdn
    linarith
  · rw [hy, hm, hd]
    obtain ⟨-, -, -, -, -, -, a7, a8, a9, a10⟩ := ha
    obtain ⟨-, -, -, -, b5, -, b7, -, b9, -⟩ := hb
    have c1 : (a.hour : Rat) + 1 ≤ (b.hour : Rat) := by exact_mod_cast h
    have c2 : (a.minute : Rat) ≤ 59 := by exact_mod_cast a8
    have c3 : (0 : Rat) ≤ (b.minute : Rat) := by exact_mod_cast b7
    have c4 : (0 : Rat) ≤ b.second := b9
    linarith
  · rw [hy, hm, hd, hh]
    obtain ⟨-, -, -, -, -, -, -, -, a9, a10⟩ := ha
    obtain ⟨-, -, -, -, -, -, -, -, b9, -⟩ := hb
    have c1 : (a.minute : Rat) + 1 ≤ (b.minute : Rat) := by exact_mod_cast h
    linarith
  · rw [hy, hm, hd, hh, hmi]
    linarith

theorem cmp_swap_int (a b : Int) : cmpInt a b = (cmpInt b a).swap := by
  unfold cmpInt
  split_ifs with h1 h2 h3 h4 h5 h6 <;> simp [Ordering.swap] <;> omega

theorem cmp_swap_rat (a b : Rat) : cmpRat a b = (cmpRat b a).swap := by
  unfold cmpRat
  rcases lt_trichotomy a b with h | h | h
  · have hnb : ¬ b < a := by linarith
    have hne : ¬ b = a := fun hbeq => absurd hbeq.symm (ne_of_lt h)
    rw [if_pos h, if_neg hnb, if_neg hne]
    rfl
  · subst h
    rw [if_neg (lt_irrefl a), if_pos rfl]
    rfl
  · have hna : ¬ a < b := by linarith
    have hne : ¬ a = b := ne_of_gt h
    rw [if_neg hna, if_neg hne, if_pos h]
    rfl

theorem then_swap (x y : Ordering) :
    (x.then y).swap = x.swap.then y.swap := by
  cases x <;> cases y <;> rfl

theorem compareValues_swap (a b : DateTime) :
    compareValues a b = (compareValues b a).swap := by
  unfold compareValues
  rw [cmp_swap_int a.year, cmp_swap_int a.month, cmp_swap_int a.day,
    cmp_swap_int a.hour, cmp_swap_int a.minute, cmp_swap_rat a.second]
  simp [then_swap]

theorem compare_not_lt_iff (a b : DateTime) (ha : clockValid a)
    (hb : clockValid b) :
    (compareValues a b ≠ .lt) ↔ toSeconds b ≤ toSeconds a := by
  constructor
  · intro h
    cases hcv : compareValues a b with
    | lt => exact absurd hcv h
    | eq =>
      have := (compareValues_eq_iff a b).mp hcv
      unfold toSeconds
      rw [this.1, this.2.1, this.2.2.1, this.2.2.2.1, this.2.2.2.2.1,
        this.2.2.2.2.2]
    | gt =>
      have hswap : compareValues b a = .lt := by
        have := compareValues_swap a b
        rw [hcv] at this
        cases hba : compareValues b a <;> rw [hba] at this <;>
          simp [Ordering.swap] at this ⊢
      exact le_of_lt (toSec_lt_of_compare b a hb ha hswap)
  · intro h hcv
    have := toSec_lt_of_compare a b ha hb hcv
    linarith

/-- Uniqueness of the Euclidean-style split u * q + r with 0 <= r < u. -/
theorem unique_split (u : Rat) (hu : 0 < u) (a b : Int) (x y : Rat)
    (hx : 0 ≤ x) (hx2 : x < u) (hy : 0 ≤ y) (hy2 : y < u)
    (heq : u * (a : Rat) + x = u * (b : Rat) + y) : a = b ∧ x = y := by
  have hab : a = b := by
    have h1 : u * ((a : Rat) - b) = y - x := by linarith
    have h2 : ((a : Rat) - b) < 1 := by
      by_contra hcon
      push_neg at hcon
      have : u * 1 ≤ u * ((a : Rat) - b) := by
        exact mul_le_mul_of_nonneg_left hcon (le_of_lt hu)
      linarith
    have h3 : (-1 : Rat) < ((a : Rat) - b) := by
      by_contra hcon
      push_neg at hcon
      have : u * ((a : Rat) - b) ≤ u * (-1) := by
        exact mul_le_mul_of_nonneg_left hcon (le_of_lt hu)
      linarith
    have h2' : a - b < 1 := by exact_mod_cast h2
    have h3' : (-1 : Int) < a - b := by exact_mod_cast h3
    omega
  refine ⟨hab, ?_⟩
  rw [hab] at heq
  linarith

/-- Two values with calendar-valid fields and the same chronological
content have identical numeric fields. -/
theorem toSec_inj (a b : DateTime) (ha : clockValid a) (hb : clockValid b)
    (heq : toSeconds a = toSeconds b) :
    a.year = b.year ∧ a.month = b.month ∧ a.day = b.day ∧
    a.hour = b.hour ∧ a.minute = b.minute ∧ a.second = b.second := by
  have hsa := sod_bounds a ha
  have hsb := sod_bounds b hb
  unfold toSeconds at heq
  have hsplit := unique_split 86400 (by norm_num)
    (dayNum a.year a.month a.day) (dayNum b.year b.month b.day)
    (3600 * (a.hour : Rat) + 60 * (a.minute : Rat) + a.second)
    (3600 * (b.hour : Rat) + 60 * (b.minute : Rat) + b.second)
    hsa.1 hsa.2 hsb.1 hsb.2 (by linarith)
  obtain ⟨a1, a2, a3, a4, a5, a6, a7, a8, a9, a10⟩ := ha
  obtain ⟨b1, b2, b3, b4, b5, b6, b7, b8, b9, b10⟩ := hb
  have hdn := dayNum_inj a.year a.month a.day b.year b.month b.day
    a1 a2 a3 a4 b1 b2 b3 b4 hsplit.1
  have c7 : (0:Rat) ≤ 60 * (a.minute : Rat) + a.second := by
    have : (0:Rat) ≤ (a.minute : Rat) := by exact_mod_cast a7
    linarith
  have c8 : 60 * (a.minute : Rat) + a.second < 3600 := by
    have : (a.minute : Rat) ≤ 59 := by exact_mod_cast a8
    linarith
  have d7 : (0:Rat) ≤ 60 * (b.minute : Rat) + b.second := by
    have : (0:Rat) ≤ (b.minute : Rat) := by exact_mod_cast b7
    linarith
  have d8 : 60 * (b.minute : Rat) + b.second < 3600 := by
    have : (b.minute : Rat) ≤ 59 := by exact_mod_cast b8
    linarith
  have hsplit2 := unique_split 3600 (by norm_num) a.hour b.hour
    (60 * (a.minute : Rat) + a.second) (60 * (b.minute : Rat) + b.second)
    c7 c8 d7 d8 (by linarith [hsplit.2])
  have hsplit3 := unique_split 60 (by norm_num) a.minute b.minute
    a.second b.second a9 a10 b9 b10 (by linarith [hsplit2.2])
  exact ⟨hdn.1, hdn.2.1, hdn.2.2, hsplit2.1, hsplit3.1, hsplit3.2⟩

/-- Record extensionality for DateTime. -/
theorem dt_ext (a b : DateTime) (h1 : a.mode = b.mode)
    (h2 : a.fromField = b.fromField) (h3 : a.toField = b.toField)
    (h4 : a.fracsec = b.fracsec) (h5 : a.year = b.year)
    (h6 : a.month = b.month) (h7 : a.day = b.day) (h8 : a.hour = b.hour)
    (h9 : a.minute = b.minute) (h10 : a.second = b.second)
    (h11 : a.positive = b.positive) (h12 : a.tz = b.tz) : a = b := by
  cases a
  cases b
  simp only [DateTime.mk.injEq]
  exact ⟨h1, h2, h3, h4, h5, h6, h7, h8, h9, h10, h11, h12⟩

/-! ### Timezone lemmas and claim C9 -/

theorem relClock_minute (sh : Int) :
    relClockSeconds (minuteDelta sh) = 60 * (sh : Rat) := by
  by_cases h : sh < 0
  · simp only [minuteDelta, relClockSeconds, fieldInRange, datetime_is_between,
      Field.idx]
    norm_num [h, show ¬ (0 ≤ sh) by omega]
  · simp only [minuteDelta, relClockSeconds, fieldInRange, datetime_is_between,
      Field.idx]
    norm_num [h, show 0 ≤ sh by omega]

theorem change_tz_some (dt : DateTime) (t m : Int) (htz : dt.tz = some t) :
    datetime_change_timezone dt m =
      (datetime_increment dt (minuteDelta (m - t))).map
        fun r => { r with tz := some m } := by
  unfold datetime_change_timezone
  rw [htz]

/-- changeTimezone on a Year..Second absolute value with an offset set:
succeeds, shifts the chronological content by 60 * (new - current) seconds,
stores the new offset and keeps the result calendar-valid. -/
theorem change_tz_spec (dt : DateTime) (t m : Int)
    (hm : dt.mode = .absolute) (hfrom : dt.fromField = .year)
    (hto : dt.toField = .second) (htz : dt.tz = some t)
    (hmo : 1 ≤ dt.month) (hmo2 : dt.month ≤ 12) :
    ∃ r, datetime_change_timezone dt m = .ok r ∧
      toSeconds r = toSeconds dt + 60 * ((m : Rat) - (t : Rat)) ∧
      r.mode = dt.mode ∧ r.fromField = dt.fromField ∧ r.toField = dt.toField ∧
      r.fracsec = dt.fracsec ∧ r.positive = dt.positive ∧ r.tz = some m ∧
      clockValid r := by
  rw [change_tz_some dt t m htz]
  obtain ⟨r, hr, hsec, hmode, hfrom2, hto2, hfs, hpos, htz2, hbs⟩ :=
    increment_clock_spec dt (minuteDelta (m - t))
      hm rfl hfrom hto
      (show datetime_in_interval_day_second Field.minute = true from rfl)
      (show datetime_in_interval_day_second Field.minute = true from rfl)
      hmo hmo2
  rw [hr]
  refine ⟨{ r with tz := some m }, rfl, ?_, hmode, hfrom2, hto2, hfs, hpos,
    rfl, ?_⟩
  · show toSeconds r = _
    rw [hsec, relClock_minute]
    push_cast
    ring
  · exact hbs

/-- C9 counterexample: for the absolute value 24 Aug 2025 12:00:00 with
offset +0000, changeTimezone to +120 and then to -120 leaves the clock at
10:00:00, not the original 12:00:00 — the two calls shift by
(120 - 0) + (-120 - 120) = -240 minutes, not zero. -/
theorem claim_C9_counterexample :
    (datetime_change_timezone
        { year := 2025, month := 8, day := 24, hour := 12, tz := some 0 }
        120).bind
      (fun r => datetime_change_timezone r (-120)) =
    .ok { year := 2025, month := 8, day := 24, hour := 10,
          tz := some (-120) } ∧
    ({ year := 2025, month := 8, day := 24, hour := 10,
       tz := some (-120) } : DateTime).hour ≠
      ({ year := 2025, month := 8, day := 24, hour := 12,
         tz := some 0 } : DateTime).hour := by
  refine ⟨?_, by decide⟩
  have hn : normalizeDays 2025 8 24 = (2025, 8, 24) := by decide
  have e1 : datetime_increment
      { year := 2025, month := 8, day := 24, hour := 12, tz := some 0 }
      (minuteDelta 120) =
      .ok { year := 2025, month := 8, day := 24, hour := 14, tz := some 0 } := by
    simp only [datetime_increment, absClockSod, relClockSeconds, fieldInRange,
      datetime_is_between, Field.idx, datetime_in_interval_day_second,
      datetime_in_interval_year_month, minuteDelta]
    norm_num [hn]
  have e2 : datetime_increment
      { year := 2025, month := 8, day := 24, hour := 14, tz := some 120 }
      (minuteDelta (-240)) =
      .ok { year := 2025, month := 8, day := 24, hour := 10,
            tz := some 120 } := by
    simp only [datetime_increment, absClockSod, relClockSeconds, fieldInRange,
      datetime_is_between, Field.idx, datetime_in_interval_day_second,
      datetime_in_interval_year_month, minuteDelta]
    norm_num [hn]
  rw [change_tz_some _ 0 120 rfl, show (120 : Int) - 0 = 120 from rfl, e1]
  simp only [Except.map, Except.bind]
  rw [change_tz_some _ 120 (-120) rfl,
    show (-120 : Int) - 120 = -240 by norm_num, e2]
  simp only [Except.map]

/-- C9 (amended): for every Year..Second absolute value with a timezone
offset set and calendar-valid fields, changing the timezone to any offset m
and then back to the original offset restores the value exactly (the two
shifts cancel) — so +120 then -120 restores the clock exactly when the
original offset was -120 — and toUtc is idempotent. -/
theorem claim_C9_amended_timezone (dt : DateTime) (t : Int)
    (hm : dt.mode = .absolute) (hfrom : dt.fromField = .year)
    (hto : dt.toField = .second) (htz : dt.tz = some t) (hv : clockValid dt) :
    (∀ m : Int, (datetime_change_timezone dt m).bind
        (fun r => datetime_change_timezone r t) = .ok dt) ∧
    (datetime_change_to_utc dt).bind datetime_change_to_utc =
      datetime_change_to_utc dt := by
  have m1 := hv.1
  have m2 := hv.2.1
  constructor
  · intro m
    obtain ⟨r, hr, hsec, hmode, hfrom2, hto2, hfs, hpos, htz2, hval2⟩ :=
      change_tz_spec dt t m hm hfrom hto htz m1 m2
    rw [hr]
    simp only [Except.bind]
    obtain ⟨r2, hr2, hsec2, hmode2, hfrom3, hto3, hfs2, hpos2, htz3, hval3⟩ :=
      change_tz_spec r m t (hmode.trans hm) (hfrom2.trans hfrom)
        (hto2.trans hto) htz2 hval2.1 hval2.2.1
    rw [hr2]
    have hts : toSeconds r2 = toSeconds dt := by
      rw [hsec2, hsec]
      ring
    have hfields := toSec_inj r2 dt hval3 hv hts
    have hr2dt : r2 = dt :=
      dt_ext r2 dt (hmode2.trans hmode) (hfrom3.trans hfrom2)
        (hto3.trans hto2) (hfs2.trans hfs) hfields.1 hfields.2.1
        hfields.2.2.1 hfields.2.2.2.1 hfields.2.2.2.2.1 hfields.2.2.2.2.2
        (hpos2.trans hpos) (htz3.trans htz.symm)
    rw [hr2dt]
  · unfold datetime_change_to_utc
    obtain ⟨u, hu, husec, humode, hufrom, huto, hufs, hupos, hutz, huval⟩ :=
      change_tz_spec dt t 0 hm hfrom hto htz m1 m2
    rw [hu]
    simp only [Except.bind]
    obtain ⟨u2, hu2, hu2sec, hu2mode, hu2from, hu2to, hu2fs, hu2pos, hu2tz,
      hu2val⟩ :=
      change_tz_spec u 0 0 (humode.trans hm) (hufrom.trans hfrom)
        (huto.trans hto) hutz huval.1 huval.2.1
    rw [hu2]
    have hts : toSeconds u2 = toSeconds u := by
      rw [hu2sec]
      ring
    have hfields := toSec_inj u2 u hu2val huval hts
    have : u2 = u :=
      dt_ext u2 u hu2mode hu2from hu2to hu2fs hfields.1 hfields.2.1
        hfields.2.2.1 hfields.2.2.2.1 hfields.2.2.2.2.1 hfields.2.2.2.2.2
        hu2pos (hu2tz.trans hutz.symm)
    rw [this]

/-- C9 amended witness: the amended theorem applied to the concrete value
24 Aug 2025 12:00:00 +0000 with m = 323. -/
theorem claim_C9_amended_timezone_witness :
    (datetime_change_timezone
        { year := 2025, month := 8, day := 24, hour := 12, tz := some 0 }
        323).bind
      (fun r => datetime_change_timezone r 0) =
    .ok { year := 2025, month := 8, day := 24, hour := 12, tz := some 0 } :=
  (claim_C9_amended_timezone
    { year := 2025, month := 8, day := 24, hour := 12, tz := some 0 } 0
    rfl rfl rfl rfl (by decide)).1 323

/-! ### Decomposition exactness and claim C2 -/

theorem floor_unit (u : Rat) (hu : 0 < u) (q : Int) (x : Rat)
    (h1 : 0 ≤ x) (h2 : x < u) : ⌊(u * (q : Rat) + x) / u⌋ = q := by
  have hne : u ≠ 0 := ne_of_gt hu
  have hdiv : (u * (q : Rat) + x) / u = (q : Rat) + x / u := by
    field_simp
    ring
  rw [hdiv, add_comm, Int.floor_add_int]
  have : ⌊x / u⌋ = 0 := by
    apply Int.floor_eq_zero_iff.mpr
    constructor
    · exact div_nonneg h1 (le_of_lt hu)
    · rw [div_lt_one hu]
      exact h2
  rw [this]
  ring

theorem round_unit (u : Rat) (hu : 0 < u) (q : Int) :
    roundHalfQ ((u * (q : Rat)) / u) = q := by
  have hne : u ≠ 0 := ne_of_gt hu
  unfold roundHalfQ
  rw [mul_comm, mul_div_assoc, div_self hne, mul_one]
  rw [add_comm, Int.floor_add_int]
  norm_num

/-- Decomposition exactness: feeding the clock total of in-bound fields back
through decomposeClock recovers the fields, for every clock sub-range, with
fields outside the range zero. -/
theorem decompose_exact (f t : Field)
    (hf : datetime_in_interval_day_second f = true)
    (ht : datetime_in_interval_day_second t = true)
    (hord : f.idx ≤ t.idx)
    (dd hh mi : Int) (ss : Rat)
    (hdd : 0 ≤ dd) (hhh : 0 ≤ hh) (hhh2 : hh ≤ 23)
    (hmi : 0 ≤ mi) (hmi2 : mi ≤ 59) (hss : 0 ≤ ss) (hss2 : ss < 60)
    (hzd : ¬ (f.idx ≤ Field.day.idx ∧ Field.day.idx ≤ t.idx) → dd = 0)
    (hzh : ¬ (f.idx ≤ Field.hour.idx ∧ Field.hour.idx ≤ t.idx) → hh = 0)
    (hzm : ¬ (f.idx ≤ Field.minute.idx ∧ Field.minute.idx ≤ t.idx) → mi = 0)
    (hzs : ¬ (f.idx ≤ Field.second.idx ∧ Field.second.idx ≤ t.idx) → ss = 0) :
    decomposeClock f t
      (86400 * (dd : Rat) + 3600 * (hh : Rat) + 60 * (mi : Rat) + ss) =
      (dd, hh, mi, ss) := by
  have chh : (0:Rat) ≤ (hh : Rat) := by exact_mod_cast hhh
  have chh2 : (hh : Rat) ≤ 23 := by exact_mod_cast hhh2
  have cmi : (0:Rat) ≤ (mi : Rat) := by exact_mod_cast hmi
  have cmi2 : (mi : Rat) ≤ 59 := by exact_mod_cast hmi2
  cases f <;> cases t <;>
    first
      | exact absurd hf (by decide)
      | exact absurd ht (by decide)
      | exact absurd hord (by decide)
      | skip
  · -- day, day
    have h1 : hh = 0 := hzh (by decide)
    have h2 : mi = 0 := hzm (by decide)
    have h3 : ss = 0 := hzs (by decide)
    subst h1 h2 h3
    simp only [decomposeClock]
    rw [show 86400 * (dd:Rat) + 3600 * ((0:Int):Rat) + 60 * ((0:Int):Rat) + 0 =
      86400 * (dd:Rat) from by push_cast; ring]
    rw [round_unit 86400 (by norm_num) dd]
  · -- day, hour
    have h2 : mi = 0 := hzm (by decide)
    have h3 : ss = 0 := hzs (by decide)
    subst h2 h3
    simp only [decomposeClock]
    rw [show 86400 * (dd:Rat) + 3600 * (hh:Rat) + 60 * ((0:Int):Rat) + 0 =
      86400 * (dd:Rat) + 3600 * (hh:Rat) from by push_cast; ring]
    rw [show (86400 * (dd:Rat) + 3600 * (hh:Rat)) =
      86400 * (dd:Rat) + (3600 * (hh:Rat)) from by ring]
    rw [floor_unit 86400 (by norm_num) dd _ (by linarith) (by linarith)]
    rw [show 86400 * (dd:Rat) + 3600 * (hh:Rat) - 86400 * (dd:Rat) =
      3600 * (hh:Rat) from by ring]
    rw [round_unit 3600 (by norm_num) hh]
  · -- day, minute
    have h3 : ss = 0 := hzs (by decide)
    subst h3
    simp only [decomposeClock]
    rw [show 86400 * (dd:Rat) + 3600 * (hh:Rat) + 60 * (mi:Rat) + 0 =
      86400 * (dd:Rat) + (3600 * (hh:Rat) + 60 * (mi:Rat)) from by ring]
    rw [floor_unit 86400 (by norm_num) dd _ (by linarith) (by linarith)]
    rw [show 86400 * (dd:Rat) + (3600 * (hh:Rat) + 60 * (mi:Rat)) -
      86400 * (dd:Rat) = 3600 * (hh:Rat) + 60 * (mi:Rat) from by ring]
    rw [show  3600 * (hh:Rat) + 60 * (mi:Rat) =
      3600 * (hh:Rat) + (60 * (mi:Rat)) from by ring]
    rw [floor_unit 3600 (by norm_num) hh _ (by linarith) (by linarith)]
    rw [show 3600 * (hh:Rat) + 60 * (mi:Rat) - 3600 * (hh:Rat) =
      60 * (mi:Rat) from by ring]
    rw [round_unit 60 (by norm_num) mi]
  · -- day, second
    simp only [decomposeClock]
    rw [show 86400 * (dd:Rat) + 3600 * (hh:Rat) + 60 * (mi:Rat) + ss =
      86400 * (dd:Rat) + (3600 * (hh:Rat) + 60 * (mi:Rat) + ss) from by ring]
    rw [floor_unit 86400 (by norm_num) dd _ (by linarith) (by linarith)]
    rw [show 86400 * (dd:Rat) + (3600 * (hh:Rat) + 60 * (mi:Rat) + ss) -
      86400 * (dd:Rat) = 3600 * (hh:Rat) + (60 * (mi:Rat) + ss) from by ring]
    rw [floor_unit 3600 (by norm_num) hh _ (by linarith) (by linarith)]
    rw [show 3600 * (hh:Rat) + (60 * (mi:Rat) + ss) - 3600 * (hh:Rat) =
      60 * (mi:Rat) + ss from by ring]
    rw [floor_unit 60 (by norm_num) mi _ (by linarith) (by linarith)]
    rw [show 60 * (mi:Rat) + ss - 60 * (mi:Rat) = ss from by ring]
  · -- hour, hour
    have h1 : dd = 0 := hzd (by decide)
    have h2 : mi = 0 := hzm (by decide)
    have h3 : ss = 0 := hzs (by decide)
    subst h1 h2 h3
    simp only [decomposeClock]
    rw [show 86400 * ((0:Int):Rat) + 3600 * (hh:Rat) + 60 * ((0:Int):Rat) + 0 =
      3600 * (hh:Rat) from by push_cast; ring]
    rw [round_unit 3600 (by norm_num) hh]
  · -- hour, minute
    have h1 : dd = 0 := hzd (by decide)
    have h3 : ss = 0 := hzs (by decide)
    subst h1 h3
    simp only [decomposeClock]
    rw [show 86400 * ((0:Int):Rat) + 3600 * (hh:Rat) + 60 * (mi:Rat) + 0 =
      3600 * (hh:Rat) + (60 * (mi:Rat)) from by push_cast; ring]
    rw [floor_unit 3600 (by norm_num) hh _ (by linarith) (by linarith)]
    rw [show 3600 * (hh:Rat) + 60 * (mi:Rat) - 3600 * (hh:Rat) =
      60 * (mi:Rat) from by ring]
    rw [round_unit 60 (by norm_num) mi]
  · -- hour, second
    have h1 : dd = 0 := hzd (by decide)
    subst h1
    simp only [decomposeClock]
    rw [show 86400 * ((0:Int):Rat) + 3600 * (hh:Rat) + 60 * (mi:Rat) + ss =
      3600 * (hh:Rat) + (60 * (mi:Rat) + ss) from by push_cast; ring]
    rw [floor_unit 3600 (by norm_num) hh _ (by linarith) (by linarith)]
    rw [show 3600 * (hh:Rat) + (60 * (mi:Rat) + ss) - 3600 * (hh:Rat) =
      60 * (mi:Rat) + ss from by ring]
    rw [floor_unit 60 (by norm_num) mi _ (by linarith) (by linarith)]
    rw [show 60 * (mi:Rat) + ss - 60 * (mi:Rat) = ss from by ring]
  · -- minute, minute
    have h1 : dd = 0 := hzd (by decide)
    have h2 : hh = 0 := hzh (by decide)
    have h3 : ss = 0 := hzs (by decide)
    subst h1 h2 h3
    simp only [decomposeClock]
    rw [show 86400 * ((0:Int):Rat) + 3600 * ((0:Int):Rat) + 60 * (mi:Rat) + 0 =
      60 * (mi:Rat) from by push_cast; ring]
    rw [round_unit 60 (by norm_num) mi]
  · -- minute, second
    have h1 : dd = 0 := hzd (by decide)
    have h2 : hh = 0 := hzh (by decide)
    subst h1 h2
    simp only [decomposeClock]
    rw [show 86400 * ((0:Int):Rat) + 3600 * ((0:Int):Rat) + 60 * (mi:Rat) + ss =
      60 * (mi:Rat) + ss from by push_cast; ring]
    rw [show 60 * (mi:Rat) + ss = 60 * (mi:Rat) + (ss) from by ring]
    rw [floor_unit 60 (by norm_num) mi _ (by linarith) (by linarith)]
    rw [show 60 * (mi:Rat) + ss - 60 * (mi:Rat) = ss from by ring]
  · -- second, second
    have h1 : dd = 0 := hzd (by decide)
    have h2 : hh = 0 := hzh (by decide)
    have h3 : mi = 0 := hzm (by decide)
    subst h1 h2 h3
    simp only [decomposeClock]
    rw [show 86400 * ((0:Int):Rat) + 3600 * ((0:Int):Rat) +
      60 * ((0:Int):Rat) + ss = ss from by push_cast; ring]

/-! ### Claim C2: increment/difference inverse -/


theorem fieldInRange_iff (d : DateTime) (g : Field) :
    fieldInRange d g = true ↔
      (d.fromField.idx ≤ g.idx ∧ g.idx ≤ d.toField.idx) := by
  simp [fieldInRange, datetime_is_between]

theorem sameGroup_of_ds :
    ∀ f t : Field, datetime_in_interval_day_second f = true →
      datetime_in_interval_day_second t = true → sameGroup f t = true := by
  decide

theorem difference_clock_reduce (x b res : DateTime)
    (hx : x.mode = .absolute) (hb : b.mode = .absolute)
    (hres : res.mode = .relative)
    (hordr : res.fromField.idx ≤ res.toField.idx)
    (hsg : sameGroup res.fromField res.toField = true)
    (hym : datetime_in_interval_year_month res.fromField = false) :
    datetime_difference x b res = .ok (diffClock x b res) := by
  unfold datetime_difference
  rw [if_neg (by simp [hx, hb]), if_neg (by simp [hres]),
    if_neg (not_not_intro ⟨hordr, by simp [hsg]⟩), if_neg (by simp [hym])]

/-- C2 (amended): for every absolute Year..Second value a with calendar-valid
fields and every well-formed Relative clock-group delta d (range inside
Day..Second, fields within bounds, zeros outside the range, no timezone,
and either positive or of nonzero magnitude), incrementing a by d and then
taking the difference of the result against a at the range of d returns
exactly d.  For calendar-group deltas the identity fails (see the
counterexample). -/
theorem claim_C2_amended_inverse (a d : DateTime)
    (ham : a.mode = .absolute) (haf : a.fromField = .year)
    (hat : a.toField = .second) (hav : clockValid a)
    (hdm : d.mode = .relative)
    (hdf : datetime_in_interval_day_second d.fromField = true)
    (hdt : datetime_in_interval_day_second d.toField = true)
    (hord : d.fromField.idx ≤ d.toField.idx)
    (hdz : zeroOutside d = d)
    (hdd : 0 ≤ d.day) (hdh : 0 ≤ d.hour) (hdh2 : d.hour ≤ 23)
    (hdmi : 0 ≤ d.minute) (hdmi2 : d.minute ≤ 59)
    (hds : 0 ≤ d.second) (hds2 : d.second < 60)
    (hdtz : d.tz = none)
    (hsign : d.positive = true ∨ relClockSeconds d ≠ 0) :
    (datetime_increment a d).bind (fun r => datetime_difference r a d) =
      .ok d := by
  obtain ⟨r, hr, hsec, hmode, hfrom2, hto2, hfs, hpos, htz2, hval2⟩ :=
    increment_clock_spec a d ham hdm haf hat hdf hdt hav.1 hav.2.1
  rw [hr]
  simp only [Except.bind]
  rw [difference_clock_reduce r a d (hmode.trans ham) ham hdm hord
    (sameGroup_of_ds d.fromField d.toField hdf hdt) (ym_of_ds d.fromField hdf)]
  -- guard projections of d
  have hgd : (if fieldInRange d .day then d.day else 0) = d.day :=
    congrArg DateTime.day hdz
  have hgh : (if fieldInRange d .hour then d.hour else 0) = d.hour :=
    congrArg DateTime.hour hdz
  have hgm : (if fieldInRange d .minute then d.minute else 0) = d.minute :=
    congrArg DateTime.minute hdz
  have hgs : (if fieldInRange d .second then d.second else 0) = d.second :=
    congrArg DateTime.second hdz
  have hgy : (if fieldInRange d .year then d.year else 0) = d.year :=
    congrArg DateTime.year hdz
  have hgmo : (if fieldInRange d .month then d.month else 0) = d.month :=
    congrArg DateTime.month hdz
  have hdfi := (in_ds_iff d.fromField).mp hdf
  have hdti := (in_ds_iff d.toField).mp hdt
  have eyi : Field.year.idx = 1 := rfl
  have emi : Field.month.idx = 2 := rfl
  have hyr : fieldInRange d .year = false := by
    cases hc : fieldInRange d .year
    · rfl
    · have := (fieldInRange_iff d .year).mp hc
      omega
  have hmor : fieldInRange d .month = false := by
    cases hc : fieldInRange d .month
    · rfl
    · have := (fieldInRange_iff d .month).mp hc
      omega
  have hy0 : d.year = 0 := by
    rw [hyr] at hgy
    simpa using hgy.symm
  have hmo0 : d.month = 0 := by
    rw [hmor] at hgmo
    simpa using hgmo.symm
  -- the signed magnitude
  set M : Rat := 86400 * (d.day : Rat) + 3600 * (d.hour : Rat) +
    60 * (d.minute : Rat) + d.second with hM
  have hrel : relClockSeconds d = if d.positive then M else -M := by
    unfold relClockSeconds
    rw [hgd, hgh, hgm, hgs]
  have cdd : (0:Rat) ≤ (d.day : Rat) := by exact_mod_cast hdd
  have chh : (0:Rat) ≤ (d.hour : Rat) := by exact_mod_cast hdh
  have cmi : (0:Rat) ≤ (d.minute : Rat) := by exact_mod_cast hdmi
  have hM0 : 0 ≤ M := by rw [hM]; linarith
  -- zero conditions for decompose_exact
  have hzd : ¬ (d.fromField.idx ≤ Field.day.idx ∧
      Field.day.idx ≤ d.toField.idx) → d.day = 0 := by
    intro hc
    have : fieldInRange d .day = false := by
      cases hcc : fieldInRange d .day
      · rfl
      · exact absurd ((fieldInRange_iff d .day).mp hcc) hc
    rw [this] at hgd
    simpa using hgd.symm
  have hzh : ¬ (d.fromField.idx ≤ Field.hour.idx ∧
      Field.hour.idx ≤ d.toField.idx) → d.hour = 0 := by
    intro hc
    have : fieldInRange d .hour = false := by
      cases hcc : fieldInRange d .hour
      · rfl
      · exact absurd ((fieldInRange_iff d .hour).mp hcc) hc
    rw [this] at hgh
    simpa using hgh.symm
  have hzm : ¬ (d.fromField.idx ≤ Field.minute.idx ∧
      Field.minute.idx ≤ d.toField.idx) → d.minute = 0 := by
    intro hc
    have : fieldInRange d .minute = false := by
      cases hcc : fieldInRange d .minute
      · rfl
      · exact absurd ((fieldInRange_iff d .minute).mp hcc) hc
    rw [this] at hgm
    simpa using hgm.symm
  have hzs : ¬ (d.fromField.idx ≤ Field.second.idx ∧
      Field.second.idx ≤ d.toField.idx) → d.second = 0 := by
    intro hc
    have : fieldInRange d .second = false := by
      cases hcc : fieldInRange d .second
      · rfl
      · exact absurd ((fieldInRange_iff d .second).mp hcc) hc
    rw [this] at hgs
    simpa using hgs.symm
  have hw := decompose_exact d.fromField d.toField hdf hdt hord
    d.day d.hour d.minute d.second hdd hdh hdh2 hdmi hdmi2 hds hds2
    hzd hzh hzm hzs
  -- the difference body
  have hdq : toSeconds r - toSeconds a = relClockSeconds d := by
    rw [hsec]
    ring
  have hkey : diffClock r a d = d := by
    by_cases hb : d.positive = true
    · have hrel2 : relClockSeconds d = M := by rw [hrel, hb]; simp
      have hcmp : compareValues r a ≠ .lt := by
        refine (compare_not_lt_iff r a hval2 hav).mpr ?_
        have : toSeconds r = toSeconds a + M := by
          rw [hsec, hrel2]
        linarith
      unfold diffClock
      rw [zeroOutside_full r (hfrom2.trans haf) (hto2.trans hat),
        zeroOutside_full a haf hat]
      simp only [hdq, hrel2]
      rw [if_neg (by linarith : ¬ (M < 0)), hM, hw]
      refine dt_ext _ d rfl rfl rfl rfl hy0.symm hmo0.symm
        rfl rfl rfl rfl ?_ hdtz.symm
      simp [hcmp, hb]
    · have hbf : d.positive = false := by
        cases hcc : d.positive
        · rfl
        · exact absurd hcc hb
      have hrel2 : relClockSeconds d = -M := by rw [hrel, hbf]; simp
      have hMne : M ≠ 0 := by
        rcases hsign with hs | hs
        · exact absurd hs hb
        · intro hzero
          rw [hrel2, hzero] at hs
          simp at hs
      have hMpos : 0 < M := lt_of_le_of_ne hM0 (Ne.symm hMne)
      have hcmp : compareValues r a = .lt := by
        by_contra hcon
        have hle := (compare_not_lt_iff r a hval2 hav).mp hcon
        have : toSeconds r = toSeconds a + -M := by
          rw [hsec, hrel2]
        linarith
      unfold diffClock
      rw [zeroOutside_full r (hfrom2.trans haf) (hto2.trans hat),
        zeroOutside_full a haf hat]
      simp only [hdq, hrel2]
      rw [if_pos (by linarith : (-M : Rat) < 0), neg_neg, hM, hw]
      refine dt_ext _ d rfl rfl rfl rfl hy0.symm hmo0.symm
        rfl rfl rfl rfl ?_ hdtz.symm
      simp [hcmp, hbf]
  rw [hkey]


/-- C2 counterexample: for base 2024-01-31 and delta +1 month, increment
lands on 2024-03-02 (Feb 31 carries through the 29-day February), and the
difference of the result against the base at the Month..Month range is
2 months, not the original 1 month delta. -/
theorem claim_C2_counterexample :
    (datetime_increment
        { year := 2024, month := 1, day := 31 }
        { mode := .relative, fromField := .month, toField := .month,
          month := 1 }).bind
      (fun r => datetime_difference r
        { year := 2024, month := 1, day := 31 }
        { mode := .relative, fromField := .month, toField := .month,
          month := 1 }) =
    .ok { mode := .relative, fromField := .month, toField := .month,
          month := 2 } ∧
    ({ mode := .relative, fromField := .month, toField := .month,
       month := 2 } : DateTime) ≠
      { mode := .relative, fromField := .month, toField := .month,
        month := 1 } := by
  exact ⟨by decide, by decide⟩

/-- C2 amended witness: the amended theorem applied to the base 2024-01-31
and the +2 days Day..Day delta. -/
theorem claim_C2_amended_inverse_witness :
    (datetime_increment { year := 2024, month := 1, day := 31 }
        { mode := .relative, fromField := .day, toField := .day,
          day := 2 }).bind
      (fun r => datetime_difference r { year := 2024, month := 1, day := 31 }
        { mode := .relative, fromField := .day, toField := .day, day := 2 }) =
    .ok { mode := .relative, fromField := .day, toField := .day, day := 2 } :=
  claim_C2_amended_inverse
    { year := 2024, month := 1, day := 31 }
    { mode := .relative, fromField := .day, toField := .day, day := 2 }
    rfl rfl rfl (by decide) rfl (by decide) (by decide) (by decide)
    (by decide) (by decide) (by decide) (by decide) (by decide) (by decide)
    (by decide) (by decide) rfl (Or.inl rfl)

/-! ### Codec lemmas: number rendering round-trips -/

theorem parseNat_from (l : List Char) :
    ∀ acc : Nat,
      l.foldl (fun a c => a * 10 + (c.toNat - 48)) acc =
        acc * 10 ^ l.length + parseNat l := by
  induction l with
  | nil => intro acc; simp [parseNat]
  | cons c rest ih =>
    intro acc
    simp only [List.foldl_cons, List.length_cons, parseNat]
    rw [ih (acc * 10 + (c.toNat - 48)), ih (0 * 10 + (c.toNat - 48))]
    ring

theorem parseNat_append (l1 l2 : List Char) :
    parseNat (l1 ++ l2) = parseNat l1 * 10 ^ l2.length + parseNat l2 := by
  unfold parseNat
  rw [List.foldl_append]
  exact parseNat_from l2 _

theorem digitChar_toNat (d : Nat) (hd : d < 10) : (digitChar d).toNat = 48 + d := by
  interval_cases d <;> decide

theorem isDigitCh_digitChar (d : Nat) (hd : d < 10) :
    isDigitCh (digitChar d) = true := by
  interval_cases d <;> decide

theorem parseNat_digitChar (d : Nat) (hd : d < 10) :
    parseNat [digitChar d] = d := by
  interval_cases d <;> decide

theorem natToCharsAux_spec (f : Nat) :
    ∀ (n : Nat) (acc : List Char), n < 10 ^ (f + 1) →
      ∃ ds, natToCharsAux (f + 1) n acc = ds ++ acc ∧ ds ≠ [] ∧
        (∀ c ∈ ds, isDigitCh c = true) ∧ parseNat ds = n ∧
        (∀ k, 1 ≤ k → n < 10 ^ k → ds.length ≤ k) := by
  induction f with
  | zero =>
    intro n acc hn
    norm_num at hn
    refine ⟨[digitChar n], ?_, by simp, ?_, ?_, ?_⟩
    · simp [natToCharsAux, hn]
    · intro c hc
      simp only [List.mem_singleton] at hc
      subst hc
      exact isDigitCh_digitChar n hn
    · exact parseNat_digitChar n hn
    · intro k hk _
      simp
      omega
  | succ m ih =>
    intro n acc hn
    by_cases h10 : n < 10
    · refine ⟨[digitChar n], ?_, by simp, ?_, ?_, ?_⟩
      · simp [natToCharsAux, h10]
      · intro c hc
        simp only [List.mem_singleton] at hc
        subst hc
        exact isDigitCh_digitChar n h10
      · exact parseNat_digitChar n h10
      · intro k hk _
        simp
        omega
    · have hstep : natToCharsAux (m + 1 + 1) n acc =
          natToCharsAux (m + 1) (n / 10) (digitChar (n % 10) :: acc) := by
        simp [natToCharsAux, h10]
      have hdiv : n / 10 < 10 ^ (m + 1) := by
        rw [pow_succ] at hn
        omega
      obtain ⟨ds, hds, hne, hdig, hval, hlen⟩ :=
        ih (n / 10) (digitChar (n % 10) :: acc) hdiv
      refine ⟨ds ++ [digitChar (n % 10)], ?_, by simp [hne], ?_, ?_, ?_⟩
      · rw [hstep, hds]
        simp
      · intro c hc
        rcases List.mem_append.mp hc with h | h
        · exact hdig c h
        · simp only [List.mem_singleton] at h
          subst h
          exact isDigitCh_digitChar (n % 10) (Nat.mod_lt n (by norm_num))
      · rw [parseNat_append]
        simp only [List.length_singleton, pow_one]
        rw [parseNat_digitChar (n % 10) (Nat.mod_lt n (by norm_num)), hval]
        omega
      · intro k hk hnk
        have hk2 : 2 ≤ k := by
          by_contra hcon
          have : k = 1 := by omega
          subst this
          simp at hnk
          omega
        have : n / 10 < 10 ^ (k - 1) := by
          have : 10 ^ k = 10 ^ (k - 1) * 10 := by
            rw [← pow_succ]
            congr 1
            omega
          omega
        have := hlen (k - 1) (by omega) this
        simp only [List.length_append, List.length_singleton]
        omega

theorem natToChars_spec (n : Nat) :
    natToChars n ≠ [] ∧ (∀ c ∈ natToChars n, isDigitCh c = true) ∧
    parseNat (natToChars n) = n ∧
    (∀ k, 1 ≤ k → n < 10 ^ k → (natToChars n).length ≤ k) := by
  obtain ⟨ds, hds, hne, hdig, hval, hlen⟩ :=
    natToCharsAux_spec n n [] (by
      calc n < 10 ^ n := Nat.lt_pow_self (show (1 : Nat) < 10 by norm_num) n
      _ ≤ 10 ^ (n + 1) := Nat.pow_le_pow_right (by norm_num) (by omega))
  unfold natToChars
  rw [hds]
  simp only [List.append_nil]
  exact ⟨hne, hdig, hval, hlen⟩

theorem parseNat_zeros (k : Nat) :
    ∀ l : List Char, parseNat (List.replicate k '0' ++ l) = parseNat l := by
  induction k with
  | zero => intro l; simp
  | succ m ih =>
    intro l
    simp only [List.replicate_succ, List.cons_append, parseNat, List.foldl]
    have : ('0'.toNat - 48) = 0 := by decide
    rw [this]
    exact ih l

theorem padNat_spec (w n : Nat) (hw : 1 ≤ w) (hn : n < 10 ^ w) :
    (padNat w n).length = w ∧ (∀ c ∈ padNat w n, isDigitCh c = true) ∧
    parseNat (padNat w n) = n ∧ padNat w n ≠ [] := by
  obtain ⟨hne, hdig, hval, hlen⟩ := natToChars_spec n
  have hlew := hlen w hw hn
  unfold padNat padLeftZero
  refine ⟨?_, ?_, ?_, ?_⟩
  · simp only [List.length_append, List.length_replicate]
    omega
  · intro c hc
    rcases List.mem_append.mp hc with h | h
    · have := List.eq_of_mem_replicate h
      subst this
      decide
    · exact hdig c h
  · rw [parseNat_zeros, hval]
  · intro hcon
    rw [List.append_eq_nil] at hcon
    exact hne hcon.2

/-! ### Codec lemmas: separator splitting round-trips -/

theorem splitSep_ne_nil (sep : Char) (l : List Char) :
    splitSep sep l ≠ [] := by
  cases l with
  | nil => simp [splitSep]
  | cons c rest =>
    simp only [splitSep]
    split_ifs
    · simp
    · cases h : splitSep sep rest <;> simp

theorem splitSep_single (sep : Char) (l : List Char)
    (h : ∀ c ∈ l, c ≠ sep) : splitSep sep l = [l] := by
  induction l with
  | nil => rfl
  | cons c rest ih =>
    have hc : c ≠ sep := h c (by simp)
    have hrest := ih (fun x hx => h x (by simp [hx]))
    simp only [splitSep, if_neg hc, hrest]

theorem splitSep_lead (sep : Char) (tok rest : List Char)
    (h : ∀ c ∈ tok, c ≠ sep) :
    splitSep sep (tok ++ sep :: rest) = tok :: splitSep sep rest := by
  induction tok with
  | nil => simp [splitSep]
  | cons c tk ih =>
    have hc : c ≠ sep := h c (by simp)
    have htk := ih (fun x hx => h x (by simp [hx]))
    simp only [List.cons_append, splitSep, if_neg hc]
    rw [show tk.append (sep :: rest) = tk ++ sep :: rest from rfl, htk]

theorem split_join (sep : Char) :
    ∀ ts : List (List Char), ts ≠ [] →
      (∀ t ∈ ts, ∀ c ∈ t, c ≠ sep) →
      splitSep sep (joinSep sep ts) = ts := by
  intro ts
  induction ts with
  | nil => intro h; exact absurd rfl h
  | cons t rest ih =>
    intro _ hsep
    cases rest with
    | nil =>
      simp only [joinSep]
      exact splitSep_single sep t (hsep t (by simp))
    | cons t2 rs =>
      have hj : joinSep sep (t :: t2 :: rs) = t ++ sep :: joinSep sep (t2 :: rs) :=
        rfl
      rw [hj, splitSep_lead sep t _ (hsep t (by simp))]
      rw [ih (by simp) (fun x hx => hsep x (by simp [hx]))]

/-! ### Codec lemmas: character classes and token shapes -/

theorem isDigitCh_ne (c : Char) (h : isDigitCh c = true) :
    c ≠ ' ' ∧ c ≠ ':' ∧ c ≠ '.' ∧ c ≠ '+' ∧ c ≠ '-' := by
  refine ⟨?_, ?_, ?_, ?_, ?_⟩ <;> intro hc <;> subst hc <;>
    exact absurd h (by decide)

theorem allDigits_iff (l : List Char) :
    allDigits l = true ↔ l ≠ [] ∧ ∀ c ∈ l, isDigitCh c = true := by
  simp [allDigits, List.all_eq_true, List.isEmpty_iff]

theorem allDigits_natToChars (n : Nat) : allDigits (natToChars n) = true := by
  obtain ⟨hne, hdig, _, _⟩ := natToChars_spec n
  exact (allDigits_iff _).mpr ⟨hne, hdig⟩

theorem padNat_digits (w n : Nat) : ∀ c ∈ padNat w n, isDigitCh c = true := by
  intro c hc
  unfold padNat padLeftZero at hc
  rcases List.mem_append.mp hc with h | h
  · have := List.eq_of_mem_replicate h
    subst this
    decide
  · exact (natToChars_spec n).2.1 c h

theorem padNat_ne_nil (w n : Nat) : padNat w n ≠ [] := by
  unfold padNat padLeftZero
  intro hcon
  rw [List.append_eq_nil] at hcon
  exact (natToChars_spec n).1 hcon.2

theorem allDigits_padNat (w n : Nat) : allDigits (padNat w n) = true :=
  (allDigits_iff _).mpr ⟨padNat_ne_nil w n, padNat_digits w n⟩

theorem parseNat_padNat (w n : Nat) : parseNat (padNat w n) = n := by
  unfold padNat padLeftZero
  rw [parseNat_zeros]
  exact (natToChars_spec n).2.2.1

theorem padNat_length (w n : Nat) (hn : n < 10 ^ w) (hw : 1 ≤ w) :
    (padNat w n).length = w := by
  have := (natToChars_spec n).2.2.2 w hw hn
  unfold padNat padLeftZero
  simp only [List.length_append, List.length_replicate]
  omega

theorem mem_joinSep (sep : Char) :
    ∀ (ts : List (List Char)) (c : Char),
      c ∈ joinSep sep ts → c = sep ∨ ∃ t ∈ ts, c ∈ t := by
  intro ts
  induction ts with
  | nil => intro c hc; simp [joinSep] at hc
  | cons t rest ih =>
    intro c hc
    cases rest with
    | nil =>
      simp only [joinSep] at hc
      exact Or.inr ⟨t, by simp, hc⟩
    | cons t2 rs =>
      have hj : joinSep sep (t :: t2 :: rs) = t ++ sep :: joinSep sep (t2 :: rs) :=
        rfl
      rw [hj] at hc
      rcases List.mem_append.mp hc with h | h
      · exact Or.inr ⟨t, by simp, h⟩
      · rcases List.mem_cons.mp h with h | h
        · exact Or.inl h
        · rcases ih c h with h | ⟨u, hu, hcu⟩
          · exact Or.inl h
          · exact Or.inr ⟨u, by simp [hu], hcu⟩

theorem secondChars_chars (s : Rat) (fs : Int) :
    ∀ c ∈ secondChars s fs, isDigitCh c = true ∨ c = '.' := by
  intro c hc
  unfold secondChars at hc
  rcases List.mem_append.mp hc with h | h
  · exact Or.inl (padNat_digits _ _ c h)
  · by_cases hf : fs.toNat = 0
    · rw [if_pos hf] at h
      simp at h
    · rw [if_neg hf] at h
      rcases List.mem_cons.mp h with h | h
      · exact Or.inr h
      · exact Or.inl (padNat_digits _ _ c h)

theorem unitField_of_digits (t : List Char) (h : allDigits t = true) :
    unitField t = none := by
  unfold unitField
  split_ifs with h1 h2 h3 h4 h5 h6
  · exact absurd (h1 ▸ h) (by decide)
  · exact absurd (h2 ▸ h) (by decide)
  · exact absurd (h3 ▸ h) (by decide)
  · exact absurd (h4 ▸ h) (by decide)
  · exact absurd (h5 ▸ h) (by decide)
  · exact absurd (h6 ▸ h) (by decide)
  · rfl

theorem monthName_props (mo : Int) (h1 : 1 ≤ mo) (h2 : mo ≤ 12) :
    (∀ c ∈ monthName mo, c ≠ ' ' ∧ c ≠ '-') ∧
    allDigits (monthName mo) = false ∧ hasColon (monthName mo) = false ∧
    unitField (monthName mo) = none ∧
    monthFromName (monthName mo) = some mo ∧ monthName mo ≠ [] := by
  interval_cases mo <;>
    exact ⟨by decide, by decide, by decide, by decide, by decide, by decide⟩

theorem isTzTok_digit_head (c : Char) (tl : List Char)
    (h : isDigitCh c = true) : isTzTok (c :: tl) = false := by
  have hne := isDigitCh_ne c h
  simp [isTzTok, hne.2.2.2.1, hne.2.2.2.2]

theorem isRelTokens_abs (t1 : List Char) (rest : List (List Char))
    (h1 : t1 ≠ []) (h2 : ∀ c ∈ t1, c ≠ '-')
    (h3 : ∀ u rs, rest = u :: rs → unitField u = none) :
    isRelTokens (t1 :: rest) = false := by
  obtain ⟨c, tl, hc⟩ := List.exists_cons_of_ne_nil h1
  subst hc
  have hcd : c ≠ '-' := h2 c (by simp)
  cases rest with
  | nil => simp [isRelTokens, hcd]
  | cons u rs => simp [isRelTokens, hcd, h3 u rs rfl]

theorem isTzTok_padNat (w n : Nat) : isTzTok (padNat w n) = false := by
  obtain ⟨c, tl, hc⟩ := List.exists_cons_of_ne_nil (padNat_ne_nil w n)
  rw [hc]
  exact isTzTok_digit_head c tl (padNat_digits w n c (hc ▸ List.mem_cons_self c tl))

theorem isTzTok_padNat_append (w n : Nat) (l : List Char) :
    isTzTok (padNat w n ++ l) = false := by
  obtain ⟨c, tl, hc⟩ := List.exists_cons_of_ne_nil (padNat_ne_nil w n)
  rw [hc, List.cons_append]
  exact isTzTok_digit_head c _ (padNat_digits w n c (hc ▸ List.mem_cons_self c tl))

theorem isTzTok_tzChars (z : Int) : isTzTok (tzChars z) = true := by
  by_cases hz : z < 0 <;> simp [tzChars, isTzTok, hz]

theorem tzChars_chars (z : Int) : ∀ c ∈ tzChars z, c ≠ ' ' := by
  intro c hc
  by_cases hz : z < 0 <;> simp only [tzChars, hz, if_pos, if_neg,
    if_true, if_false, ite_true, ite_false] at hc <;>
  · rcases List.mem_cons.mp hc with h | h
    · subst h; decide
    · rcases List.mem_append.mp h with h2 | h2
      · exact (isDigitCh_ne c (padNat_digits 2 _ c h2)).1
      · exact (isDigitCh_ne c (padNat_digits 2 _ c h2)).1

theorem clockTok2_chars (a b : Nat) :
    ∀ c ∈ padNat 2 a ++ ':' :: padNat 2 b, c ≠ ' ' := by
  intro c hc
  rcases List.mem_append.mp hc with h | h
  · exact (isDigitCh_ne c (padNat_digits 2 a c h)).1
  · rcases List.mem_cons.mp h with h | h
    · subst h; decide
    · exact (isDigitCh_ne c (padNat_digits 2 b c h)).1

theorem clockTok3_chars (a b : Nat) (s : Rat) (fs : Int) :
    ∀ c ∈ padNat 2 a ++ ':' :: (padNat 2 b ++ ':' :: secondChars s fs),
      c ≠ ' ' := by
  intro c hc
  rcases List.mem_append.mp hc with h | h
  · exact (isDigitCh_ne c (padNat_digits 2 a c h)).1
  · rcases List.mem_cons.mp h with h | h
    · subst h; decide
    · rcases List.mem_append.mp h with h2 | h2
      · exact (isDigitCh_ne c (padNat_digits 2 b c h2)).1
      · rcases List.mem_cons.mp h2 with h3 | h3
        · subst h3; decide
        · rcases secondChars_chars s fs c h3 with h4 | h4
          · exact (isDigitCh_ne c h4).1
          · subst h4; decide

theorem roundHalfQ_intCast (m : Int) : roundHalfQ ((m : Rat)) = m := by
  unfold roundHalfQ
  rw [show (m : Rat) + 1 / 2 = 1 / 2 + (m : Rat) from add_comm _ _]
  rw [Int.floor_add_int]
  norm_num

/-! ### Codec lemmas: clock and timezone token round-trips -/

theorem secondChars_zero (m : Int) :
    secondChars ((m : Rat) / (10 : Rat) ^ (0 : Nat)) ((0 : Nat) : Int) =
      padNat 2 m.toNat := by
  simp only [secondChars, Nat.cast_zero, Int.toNat_zero, pow_zero, div_one,
    mul_one, roundHalfQ_intCast, Int.ediv_one]
  simp

theorem secondChars_pos (m : Int) (k : Nat) (hk : 1 ≤ k) :
    secondChars ((m : Rat) / (10 : Rat) ^ k) ((k : Nat) : Int) =
      padNat 2 (m / (10 : Int) ^ k).toNat ++
        '.' :: padNat k (m % (10 : Int) ^ k).toNat := by
  have hten : ((10 : Rat) ^ k) ≠ 0 := by positivity
  simp only [secondChars, Int.toNat_natCast, div_mul_cancel₀ _ hten,
    roundHalfQ_intCast]
  rw [if_neg (by omega)]

theorem parseClockTok_hour (hr : Int) (hh0 : 0 ≤ hr) (hh : hr ≤ 23) :
    parseClockTok (padNat 2 hr.toNat) = .ok (hr, 0, 0, .hour, 0) := by
  have hdig := padNat_digits 2 hr.toNat
  have hsplit : splitSep ':' (padNat 2 hr.toNat) = [padNat 2 hr.toNat] :=
    splitSep_single ':' _ (fun c hc => (isDigitCh_ne c (hdig c hc)).2.1)
  unfold parseClockTok
  rw [hsplit]
  simp only [allDigits_padNat, if_true, parseNat_padNat,
    Int.toNat_of_nonneg hh0]
  rw [if_pos hh]

theorem parseClockTok_minute (hr mi : Int) (hh0 : 0 ≤ hr) (hh : hr ≤ 23)
    (hmi0 : 0 ≤ mi) (hmi : mi ≤ 59) :
    parseClockTok (padNat 2 hr.toNat ++ ':' :: padNat 2 mi.toNat) =
      .ok (hr, mi, 0, .minute, 0) := by
  have hdig1 := padNat_digits 2 hr.toNat
  have hdig2 := padNat_digits 2 mi.toNat
  have hsplit : splitSep ':' (padNat 2 hr.toNat ++ ':' :: padNat 2 mi.toNat) =
      [padNat 2 hr.toNat, padNat 2 mi.toNat] := by
    rw [splitSep_lead ':' _ _ (fun c hc => (isDigitCh_ne c (hdig1 c hc)).2.1)]
    rw [splitSep_single ':' _ (fun c hc => (isDigitCh_ne c (hdig2 c hc)).2.1)]
  unfold parseClockTok
  rw [hsplit]
  simp only [allDigits_padNat, Bool.and_self, if_true, parseNat_padNat,
    Int.toNat_of_nonneg hh0, Int.toNat_of_nonneg hmi0]
  rw [if_pos ⟨hh, hmi⟩]

theorem parseClockTok_sec (hr mi m : Int) (k : Nat)
    (hh0 : 0 ≤ hr) (hh : hr ≤ 23) (hmi0 : 0 ≤ mi) (hmi : mi ≤ 59)
    (hm1 : 0 ≤ m) (hm2 : m < 60 * 10 ^ k) :
    parseClockTok (padNat 2 hr.toNat ++ ':' ::
        (padNat 2 mi.toNat ++ ':' ::
          secondChars ((m : Rat) / (10 : Rat) ^ k) ((k : Nat) : Int))) =
      .ok (hr, mi, (m : Rat) / (10 : Rat) ^ k, .second, ((k : Nat) : Int)) := by
  have hdig1 := padNat_digits 2 hr.toNat
  have hdig2 := padNat_digits 2 mi.toNat
  have hscc := secondChars_chars ((m : Rat) / (10 : Rat) ^ k) ((k : Nat) : Int)
  have hscnc : ∀ c ∈ secondChars ((m : Rat) / (10 : Rat) ^ k) ((k : Nat) : Int),
      c ≠ ':' := by
    intro c hc
    rcases hscc c hc with h | h
    · exact (isDigitCh_ne c h).2.1
    · subst h; decide
  have hsplit : splitSep ':' (padNat 2 hr.toNat ++ ':' ::
      (padNat 2 mi.toNat ++ ':' ::
        secondChars ((m : Rat) / (10 : Rat) ^ k) ((k : Nat) : Int))) =
      [padNat 2 hr.toNat, padNat 2 mi.toNat,
       secondChars ((m : Rat) / (10 : Rat) ^ k) ((k : Nat) : Int)] := by
    rw [splitSep_lead ':' _ _ (fun c hc => (isDigitCh_ne c (hdig1 c hc)).2.1)]
    rw [splitSep_lead ':' _ _ (fun c hc => (isDigitCh_ne c (hdig2 c hc)).2.1)]
    rw [splitSep_single ':' _ hscnc]
  unfold parseClockTok
  rw [hsplit]
  simp only [allDigits_padNat, Bool.and_self, if_true, parseNat_padNat,
    Int.toNat_of_nonneg hh0, Int.toNat_of_nonneg hmi0]
  rw [if_pos ⟨hh, hmi⟩]
  rcases Nat.eq_zero_or_pos k with hk0 | hkpos
  · subst hk0
    rw [secondChars_zero m]
    have hsp : splitSep '.' (padNat 2 m.toNat) = [padNat 2 m.toNat] :=
      splitSep_single '.' _
        (fun c hc => (isDigitCh_ne c (padNat_digits 2 m.toNat c hc)).2.2.1)
    rw [hsp]
    simp only [allDigits_padNat, if_true, parseNat_padNat,
      Int.toNat_of_nonneg hm1]
    rw [if_pos (by omega : m ≤ 59)]
    norm_num
  · rw [secondChars_pos m k hkpos]
    have hpow : (0 : Int) < 10 ^ k := by positivity
    have hdn : 0 ≤ m / (10 : Int) ^ k := Int.ediv_nonneg hm1 (by positivity)
    have hmn : 0 ≤ m % (10 : Int) ^ k := Int.emod_nonneg m (by positivity)
    have hmlt : m % (10 : Int) ^ k < 10 ^ k := Int.emod_lt_of_pos m hpow
    have hsp : splitSep '.' (padNat 2 (m / (10 : Int) ^ k).toNat ++
        '.' :: padNat k (m % (10 : Int) ^ k).toNat) =
        [padNat 2 (m / (10 : Int) ^ k).toNat,
         padNat k (m % (10 : Int) ^ k).toNat] := by
      rw [splitSep_lead '.' _ _
        (fun c hc => (isDigitCh_ne c (padNat_digits 2 _ c hc)).2.2.1)]
      rw [splitSep_single '.' _
        (fun c hc => (isDigitCh_ne c (padNat_digits k _ c hc)).2.2.1)]
    rw [hsp]
    have hfrlen : (padNat k (m % (10 : Int) ^ k).toNat).length = k := by
      refine padNat_length k _ ?_ hkpos
      zify
      rw [Int.toNat_of_nonneg hmn]
      exact hmlt
    simp only [allDigits_padNat, Bool.and_self, if_true, parseNat_padNat,
      Int.toNat_of_nonneg hdn, hfrlen]
    have hdivlt : m / (10 : Int) ^ k ≤ 59 := by
      by_contra hcon
      push_neg at hcon
      have : 60 * 10 ^ k ≤ m := by
        calc (60 : Int) * 10 ^ k ≤ (m / 10 ^ k) * 10 ^ k := by
              apply mul_le_mul_of_nonneg_right _ (le_of_lt hpow)
              omega
        _ ≤ m := Int.ediv_mul_le m (by positivity)
      omega
    rw [if_pos hdivlt]
    have hval : ((m / (10 : Int) ^ k : Int) : Rat) +
        ((m % (10 : Int) ^ k).toNat : Rat) / (10 : Rat) ^ k =
        (m : Rat) / (10 : Rat) ^ k := by
      have hsplit2 := Int.ediv_add_emod m ((10 : Int) ^ k)
      have hq : ((m % (10 : Int) ^ k).toNat : Rat) =
          ((m % (10 : Int) ^ k : Int) : Rat) := by
        rw [show ((m % (10 : Int) ^ k).toNat : Rat) =
            (((m % (10 : Int) ^ k).toNat : Int) : Rat) by push_cast; ring]
        rw [Int.toNat_of_nonneg hmn]
      rw [hq]
      have hten : ((10 : Rat) ^ k) ≠ 0 := by positivity
      have hq2 : ((10 : Rat)) ^ k * ((m / (10 : Int) ^ k : Int) : Rat) +
          ((m % (10 : Int) ^ k : Int) : Rat) = (m : Rat) := by
        exact_mod_cast hsplit2
      field_simp
      linarith
    rw [hval]

theorem parseTzTok_cons (c : Char) (rest : List Char) :
    parseTzTok (c :: rest) =
      (if (c = '+' ∨ c = '-') ∧ rest.length = 4 ∧ allDigits rest then
        if (parseNat (rest.drop 2) : Int) ≤ 59 then
          if c = '-' then
            if 60 * (parseNat (rest.take 2) : Int) +
                (parseNat (rest.drop 2) : Int) ≤ 720 then
              .ok (-(60 * (parseNat (rest.take 2) : Int) +
                (parseNat (rest.drop 2) : Int)))
            else .error ⟨.parseOutOfRange, "timezone offset out of range"⟩
          else
            if 60 * (parseNat (rest.take 2) : Int) +
                (parseNat (rest.drop 2) : Int) ≤ 840 then
              .ok (60 * (parseNat (rest.take 2) : Int) +
                (parseNat (rest.drop 2) : Int))
            else .error ⟨.parseOutOfRange, "timezone offset out of range"⟩
        else .error ⟨.parseOutOfRange, "timezone minutes out of range"⟩
      else .error ⟨.parseMalformed, "bad timezone token"⟩) := rfl

theorem parseTzTok_tzChars (m : Int) (h1 : -720 ≤ m) (h2 : m ≤ 840) :
    parseTzTok (tzChars m) = .ok m := by
  by_cases hneg : m < 0
  · have htz : tzChars m = '-' ::
        (padNat 2 ((-m) / 60).toNat ++ padNat 2 ((-m) % 60).toNat) := by
      simp [tzChars, hneg]
    rw [htz]
    have hlen1 : (padNat 2 ((-m) / 60).toNat).length = 2 :=
      padNat_length 2 _ (by omega) (by norm_num)
    have hlen2 : (padNat 2 ((-m) % 60).toNat).length = 2 :=
      padNat_length 2 _ (by omega) (by norm_num)
    rw [parseTzTok_cons]
    rw [if_pos ⟨Or.inr rfl, by simp [hlen1, hlen2], (allDigits_iff _).mpr
      ⟨by simp [padNat_ne_nil], fun c hc => by
        rcases List.mem_append.mp hc with h | h
        · exact padNat_digits 2 _ c h
        · exact padNat_digits 2 _ c h⟩⟩]
    rw [List.take_left' hlen1, List.drop_left' hlen1]
    simp only [parseNat_padNat]
    rw [Int.toNat_of_nonneg (by omega : (0 : Int) ≤ (-m) / 60),
      Int.toNat_of_nonneg (by omega : (0 : Int) ≤ (-m) % 60)]
    rw [if_pos (by omega : (-m) % 60 ≤ 59)]
    rw [if_pos trivial]
    rw [Int.ediv_add_emod (-m) 60]
    rw [if_pos (by omega : -m ≤ 720)]
    rw [neg_neg]
  · have htz : tzChars m = '+' ::
        (padNat 2 (m / 60).toNat ++ padNat 2 (m % 60).toNat) := by
      simp [tzChars, hneg]
    rw [htz]
    have hlen1 : (padNat 2 (m / 60).toNat).length = 2 :=
      padNat_length 2 _ (by omega) (by norm_num)
    have hlen2 : (padNat 2 (m % 60).toNat).length = 2 :=
      padNat_length 2 _ (by omega) (by norm_num)
    rw [parseTzTok_cons]
    rw [if_pos ⟨Or.inl rfl, by simp [hlen1, hlen2], (allDigits_iff _).mpr
      ⟨by simp [padNat_ne_nil], fun c hc => by
        rcases List.mem_append.mp hc with h | h
        · exact padNat_digits 2 _ c h
        · exact padNat_digits 2 _ c h⟩⟩]
    rw [List.take_left' hlen1, List.drop_left' hlen1]
    simp only [parseNat_padNat]
    rw [Int.toNat_of_nonneg (by omega : (0 : Int) ≤ m / 60),
      Int.toNat_of_nonneg (by omega : (0 : Int) ≤ m % 60)]
    rw [if_pos (by omega : m % 60 ≤ 59)]
    rw [if_neg (by decide : ¬ ('+' : Char) = '-')]
    rw [Int.ediv_add_emod m 60]
    rw [if_pos h2]

/-! ### Codec lemmas: scan inverts format per canonical range -/

theorem scanFormat_month (y mo d h mi : Int) (s : Rat) (fs : Int)
    (hy1 : 1 ≤ y) (hmo1 : 1 ≤ mo) (hmo2 : mo ≤ 12) :
    datetime_scan (datetime_format (canonicalAbs .month y mo d h mi s fs none)) =
      .ok (canonicalAbs .month y mo d h mi s fs none) := by
  obtain ⟨hmn1, hmn2, hmn3, hmn4, hmn5, hmn6⟩ := monthName_props mo hmo1 hmo2
  have hyn : (0 : Int) ≤ y := by omega
  have hfmt : datetime_format (canonicalAbs .month y mo d h mi s fs none) =
      joinSep ' ' [monthName mo, natToChars y.toNat] := rfl
  have hsp : splitSep ' '
      (datetime_format (canonicalAbs .month y mo d h mi s fs none)) =
      [monthName mo, natToChars y.toNat] := by
    rw [hfmt]
    refine split_join ' ' _ (by simp) ?_
    intro tk htk c hc
    rcases List.mem_cons.mp htk with rfl | htk2
    · exact (hmn1 c hc).1
    · rcases List.mem_cons.mp htk2 with rfl | htk3
      · exact (isDigitCh_ne c ((natToChars_spec y.toNat).2.1 c hc)).1
      · exact absurd htk3 (List.not_mem_nil tk)
  have hrel : isRelTokens [monthName mo, natToChars y.toNat] = false := by
    refine isRelTokens_abs _ _ hmn6 (fun c hc => (hmn1 c hc).2) ?_
    intro u rs hur
    injection hur with h1 h2
    subst h1
    exact unitField_of_digits _ (allDigits_natToChars y.toNat)
  have hstep : datetime_scan
      (datetime_format (canonicalAbs .month y mo d h mi s fs none)) =
      parseAbsTokens [monthName mo, natToChars y.toNat] := by
    unfold datetime_scan
    rw [hsp]
    simp only [hrel, Bool.false_eq_true, if_false]
  rw [hstep]
  simp only [parseAbsTokens, hmn2, hmn5, allDigits_natToChars,
    (natToChars_spec y.toNat).2.2.1, Int.toNat_of_nonneg hyn,
    Bool.false_eq_true, if_false, if_true]
  rw [if_neg (by omega : ¬ (y = 0))]
  rfl

theorem scanFormat_day (y mo d h mi : Int) (s : Rat) (fs : Int)
    (hy24 : 24 ≤ y) (hmo1 : 1 ≤ mo) (hmo2 : mo ≤ 12)
    (hd1 : 1 ≤ d) (hd2 : d ≤ datetime_days_in_month y mo) :
    datetime_scan (datetime_format (canonicalAbs .day y mo d h mi s fs none)) =
      .ok (canonicalAbs .day y mo d h mi s fs none) := by
  obtain ⟨hmn1, hmn2, hmn3, hmn4, hmn5, hmn6⟩ := monthName_props mo hmo1 hmo2
  have hyn : (0 : Int) ≤ y := by omega
  have hdn : (0 : Int) ≤ d := by omega
  have hfmt : datetime_format (canonicalAbs .day y mo d h mi s fs none) =
      joinSep ' ' [natToChars d.toNat, monthName mo, natToChars y.toNat] := rfl
  have hsp : splitSep ' '
      (datetime_format (canonicalAbs .day y mo d h mi s fs none)) =
      [natToChars d.toNat, monthName mo, natToChars y.toNat] := by
    rw [hfmt]
    refine split_join ' ' _ (by simp) ?_
    intro tk htk c hc
    rcases List.mem_cons.mp htk with rfl | htk2
    · exact (isDigitCh_ne c ((natToChars_spec d.toNat).2.1 c hc)).1
    · rcases List.mem_cons.mp htk2 with rfl | htk3
      · exact (hmn1 c hc).1
      · rcases List.mem_cons.mp htk3 with rfl | htk4
        · exact (isDigitCh_ne c ((natToChars_spec y.toNat).2.1 c hc)).1
        · exact absurd htk4 (List.not_mem_nil tk)
  have hrel : isRelTokens
      [natToChars d.toNat, monthName mo, natToChars y.toNat] = false := by
    refine isRelTokens_abs _ _ (natToChars_spec d.toNat).1
      (fun c hc => (isDigitCh_ne c ((natToChars_spec d.toNat).2.1 c hc)).2.2.2.2) ?_
    intro u rs hur
    injection hur with h1 h2
    subst h1
    exact hmn4
  have hstep : datetime_scan
      (datetime_format (canonicalAbs .day y mo d h mi s fs none)) =
      parseAbsTokens [natToChars d.toNat, monthName mo, natToChars y.toNat] := by
    unfold datetime_scan
    rw [hsp]
    simp only [hrel, Bool.false_eq_true, if_false]
  rw [hstep]
  simp only [parseAbsTokens, allDigits_natToChars, hmn5,
    (natToChars_spec d.toNat).2.2.1, (natToChars_spec y.toNat).2.2.1,
    Int.toNat_of_nonneg hyn, Int.toNat_of_nonneg hdn,
    isTzTok_tzChars, isTzTok_padNat, isTzTok_padNat_append,
    Bool.false_eq_true, not_false_iff, not_false_eq_true,
    true_and, and_true, if_true, if_false]
  rw [if_neg (by omega : ¬ (y ≤ 23))]
  rw [if_pos ⟨hd1, hd2⟩]
  rfl

theorem scanFormat_hour (y mo d h mi : Int) (s : Rat) (fs : Int)
    (hy1 : 1 ≤ y) (hmo1 : 1 ≤ mo) (hmo2 : mo ≤ 12)
    (hd1 : 1 ≤ d) (hd2 : d ≤ datetime_days_in_month y mo)
    (hh0 : 0 ≤ h) (hh2 : h ≤ 23) :
    datetime_scan (datetime_format (canonicalAbs .hour y mo d h mi s fs none)) =
      .ok (canonicalAbs .hour y mo d h mi s fs none) := by
  obtain ⟨hmn1, hmn2, hmn3, hmn4, hmn5, hmn6⟩ := monthName_props mo hmo1 hmo2
  have hyn : (0 : Int) ≤ y := by omega
  have hdn : (0 : Int) ≤ d := by omega
  have hfmt : datetime_format (canonicalAbs .hour y mo d h mi s fs none) =
      joinSep ' ' [natToChars d.toNat, monthName mo, natToChars y.toNat,
        padNat 2 h.toNat] := rfl
  have hsp : splitSep ' '
      (datetime_format (canonicalAbs .hour y mo d h mi s fs none)) =
      [natToChars d.toNat, monthName mo, natToChars y.toNat,
       padNat 2 h.toNat] := by
    rw [hfmt]
    refine split_join ' ' _ (by simp) ?_
    intro tk htk c hc
    rcases List.mem_cons.mp htk with rfl | htk2
    · exact (isDigitCh_ne c ((natToChars_spec d.toNat).2.1 c hc)).1
    · rcases List.mem_cons.mp htk2 with rfl | htk3
      · exact (hmn1 c hc).1
      · rcases List.mem_cons.mp htk3 with rfl | htk4
        · exact (isDigitCh_ne c ((natToChars_spec y.toNat).2.1 c hc)).1
        · rcases List.mem_cons.mp htk4 with rfl | htk5
          · exact (isDigitCh_ne c (padNat_digits 2 h.toNat c hc)).1
          · exact absurd htk5 (List.not_mem_nil tk)
  have hrel : isRelTokens [natToChars d.toNat, monthName mo,
      natToChars y.toNat, padNat 2 h.toNat] = false := by
    refine isRelTokens_abs _ _ (natToChars_spec d.toNat).1
      (fun c hc => (isDigitCh_ne c ((natToChars_spec d.toNat).2.1 c hc)).2.2.2.2) ?_
    intro u rs hur
    injection hur with h1 h2
    subst h1
    exact hmn4
  have hstep : datetime_scan
      (datetime_format (canonicalAbs .hour y mo d h mi s fs none)) =
      parseAbsTokens [natToChars d.toNat, monthName mo, natToChars y.toNat,
        padNat 2 h.toNat] := by
    unfold datetime_scan
    rw [hsp]
    simp only [hrel, Bool.false_eq_true, if_false]
  rw [hstep]
  simp only [parseAbsTokens, allDigits_natToChars, hmn5,
    (natToChars_spec d.toNat).2.2.1, (natToChars_spec y.toNat).2.2.1,
    Int.toNat_of_nonneg hyn, Int.toNat_of_nonneg hdn,
    isTzTok_tzChars, isTzTok_padNat, isTzTok_padNat_append,
    Bool.false_eq_true, not_false_iff, not_false_eq_true,
    true_and, and_true, if_true, if_false]
  rw [if_neg (by omega : ¬ (y = 0))]
  rw [if_pos ⟨hd1, hd2⟩]
  rw [parseClockTok_hour h hh0 hh2]
  rfl

theorem scanFormat_hour_tz (y mo d h mi : Int) (s : Rat) (fs : Int) (z : Int)
    (hy1 : 1 ≤ y) (hmo1 : 1 ≤ mo) (hmo2 : mo ≤ 12)
    (hd1 : 1 ≤ d) (hd2 : d ≤ datetime_days_in_month y mo)
    (hh0 : 0 ≤ h) (hh2 : h ≤ 23) (hz1 : -720 ≤ z) (hz2 : z ≤ 840) :
    datetime_scan (datetime_format
        (canonicalAbs .hour y mo d h mi s fs (some z))) =
      .ok (canonicalAbs .hour y mo d h mi s fs (some z)) := by
  obtain ⟨hmn1, hmn2, hmn3, hmn4, hmn5, hmn6⟩ := monthName_props mo hmo1 hmo2
  have hyn : (0 : Int) ≤ y := by omega
  have hdn : (0 : Int) ≤ d := by omega
  have hfmt : datetime_format (canonicalAbs .hour y mo d h mi s fs (some z)) =
      joinSep ' ' [natToChars d.toNat, monthName mo, natToChars y.toNat,
        padNat 2 h.toNat, tzChars z] := rfl
  have hsp : splitSep ' '
      (datetime_format (canonicalAbs .hour y mo d h mi s fs (some z))) =
      [natToChars d.toNat, monthName mo, natToChars y.toNat,
       padNat 2 h.toNat, tzChars z] := by
    rw [hfmt]
    refine split_join ' ' _ (by simp) ?_
    intro tk htk c hc
    rcases List.mem_cons.mp htk with rfl | htk2
    · exact (isDigitCh_ne c ((natToChars_spec d.toNat).2.1 c hc)).1
    · rcases List.mem_cons.mp htk2 with rfl | htk3
      · exact (hmn1 c hc).1
      · rcases List.mem_cons.mp htk3 with rfl | htk4
        · exact (isDigitCh_ne c ((natToChars_spec y.toNat).2.1 c hc)).1
        · rcases List.mem_cons.mp htk4 with rfl | htk5
          · exact (isDigitCh_ne c (padNat_digits 2 h.toNat c hc)).1
          · rcases List.mem_cons.mp htk5 with rfl | htk6
            · exact tzChars_chars z c hc
            · exact absurd htk6 (List.not_mem_nil tk)
  have hrel : isRelTokens [natToChars d.toNat, monthName mo,
      natToChars y.toNat, padNat 2 h.toNat, tzChars z] = false := by
    refine isRelTokens_abs _ _ (natToChars_spec d.toNat).1
      (fun c hc => (isDigitCh_ne c ((natToChars_spec d.toNat).2.1 c hc)).2.2.2.2) ?_
    intro u rs hur
    injection hur with h1 h2
    subst h1
    exact hmn4
  have hstep : datetime_scan
      (datetime_format (canonicalAbs .hour y mo d h mi s fs (some z))) =
      parseAbsTokens [natToChars d.toNat, monthName mo, natToChars y.toNat,
        padNat 2 h.toNat, tzChars z] := by
    unfold datetime_scan
    rw [hsp]
    simp only [hrel, Bool.false_eq_true, if_false]
  rw [hstep]
  simp only [parseAbsTokens, allDigits_natToChars, hmn5,
    (natToChars_spec d.toNat).2.2.1, (natToChars_spec y.toNat).2.2.1,
    Int.toNat_of_nonneg hyn, Int.toNat_of_nonneg hdn,
    isTzTok_tzChars, isTzTok_padNat, isTzTok_padNat_append,
    Bool.false_eq_true, not_false_iff, not_false_eq_true,
    true_and, and_true, if_true, if_false]
  rw [if_neg (by omega : ¬ (y = 0))]
  rw [if_pos ⟨hd1, hd2⟩]
  rw [parseClockTok_hour h hh0 hh2]
  rw [parseTzTok_tzChars z hz1 hz2]
  rfl

theorem scanFormat_minute (y mo d h mi : Int) (s : Rat) (fs : Int)
    (hy1 : 1 ≤ y) (hmo1 : 1 ≤ mo) (hmo2 : mo ≤ 12)
    (hd1 : 1 ≤ d) (hd2 : d ≤ datetime_days_in_month y mo)
    (hh0 : 0 ≤ h) (hh2 : h ≤ 23) (hmi0 : 0 ≤ mi) (hmi2 : mi ≤ 59) :
    datetime_scan (datetime_format
        (canonicalAbs .minute y mo d h mi s fs none)) =
      .ok (canonicalAbs .minute y mo d h mi s fs none) := by
  obtain ⟨hmn1, hmn2, hmn3, hmn4, hmn5, hmn6⟩ := monthName_props mo hmo1 hmo2
  have hyn : (0 : Int) ≤ y := by omega
  have hdn : (0 : Int) ≤ d := by omega
  have hfmt : datetime_format (canonicalAbs .minute y mo d h mi s fs none) =
      joinSep ' ' [natToChars d.toNat, monthName mo, natToChars y.toNat,
        padNat 2 h.toNat ++ ':' :: padNat 2 mi.toNat] := rfl
  have hsp : splitSep ' '
      (datetime_format (canonicalAbs .minute y mo d h mi s fs none)) =
      [natToChars d.toNat, monthName mo, natToChars y.toNat,
       padNat 2 h.toNat ++ ':' :: padNat 2 mi.toNat] := by
    rw [hfmt]
    refine split_join ' ' _ (by simp) ?_
    intro tk htk c hc
    rcases List.mem_cons.mp htk with rfl | htk2
    · exact (isDigitCh_ne c ((natToChars_spec d.toNat).2.1 c hc)).1
    · rcases List.mem_cons.mp htk2 with rfl | htk3
      · exact (hmn1 c hc).1
      · rcases List.mem_cons.mp htk3 with rfl | htk4
        · exact (isDigitCh_ne c ((natToChars_spec y.toNat).2.1 c hc)).1
        · rcases List.mem_cons.mp htk4 with rfl | htk5
          · exact clockTok2_chars h.toNat mi.toNat c hc
          · exact absurd htk5 (List.not_mem_nil tk)
  have hrel : isRelTokens [natToChars d.toNat, monthName mo,
      natToChars y.toNat,
      padNat 2 h.toNat ++ ':' :: padNat 2 mi.toNat] = false := by
    refine isRelTokens_abs _ _ (natToChars_spec d.toNat).1
      (fun c hc => (isDigitCh_ne c ((natToChars_spec d.toNat).2.1 c hc)).2.2.2.2) ?_
    intro u rs hur
    injection hur with h1 h2
    subst h1
    exact hmn4
  have hstep : datetime_scan
      (datetime_format (canonicalAbs .minute y mo d h mi s fs none)) =
      parseAbsTokens [natToChars d.toNat, monthName mo, natToChars y.toNat,
        padNat 2 h.toNat ++ ':' :: padNat 2 mi.toNat] := by
    unfold datetime_scan
    rw [hsp]
    simp only [hrel, Bool.false_eq_true, if_false]
  rw [hstep]
  simp only [parseAbsTokens, allDigits_natToChars, hmn5,
    (natToChars_spec d.toNat).2.2.1, (natToChars_spec y.toNat).2.2.1,
    Int.toNat_of_nonneg hyn, Int.toNat_of_nonneg hdn,
    isTzTok_tzChars, isTzTok_padNat, isTzTok_padNat_append,
    Bool.false_eq_true, not_false_iff, not_false_eq_true,
    true_and, and_true, if_true, if_false]
  rw [if_neg (by omega : ¬ (y = 0))]
  rw [if_pos ⟨hd1, hd2⟩]
  rw [parseClockTok_minute h mi hh0 hh2 hmi0 hmi2]
  rfl

theorem scanFormat_minute_tz (y mo d h mi : Int) (s : Rat) (fs : Int) (z : Int)
    (hy1 : 1 ≤ y) (hmo1 : 1 ≤ mo) (hmo2 : mo ≤ 12)
    (hd1 : 1 ≤ d) (hd2 : d ≤ datetime_days_in_month y mo)
    (hh0 : 0 ≤ h) (hh2 : h ≤ 23) (hmi0 : 0 ≤ mi) (hmi2 : mi ≤ 59)
    (hz1 : -720 ≤ z) (hz2 : z ≤ 840) :
    datetime_scan (datetime_format
        (canonicalAbs .minute y mo d h mi s fs (some z))) =
      .ok (canonicalAbs .minute y mo d h mi s fs (some z)) := by
  obtain ⟨hmn1, hmn2, hmn3, hmn4, hmn5, hmn6⟩ := monthName_props mo hmo1 hmo2
  have hyn : (0 : Int) ≤ y := by omega
  have hdn : (0 : Int) ≤ d := by omega
  have hfmt : datetime_format (canonicalAbs .minute y mo d h mi s fs (some z)) =
      joinSep ' ' [natToChars d.toNat, monthName mo, natToChars y.toNat,
        padNat 2 h.toNat ++ ':' :: padNat 2 mi.toNat, tzChars z] := rfl
  have hsp : splitSep ' '
      (datetime_format (canonicalAbs .minute y mo d h mi s fs (some z))) =
      [natToChars d.toNat, monthName mo, natToChars y.toNat,
       padNat 2 h.toNat ++ ':' :: padNat 2 mi.toNat, tzChars z] := by
    rw [hfmt]
    refine split_join ' ' _ (by simp) ?_
    intro tk htk c hc
    rcases List.mem_cons.mp htk with rfl | htk2
    · exact (isDigitCh_ne c ((natToChars_spec d.toNat).2.1 c hc)).1
    · rcases List.mem_cons.mp htk2 with rfl | htk3
      · exact (hmn1 c hc).1
      · rcases List.mem_cons.mp htk3 with rfl | htk4
        · exact (isDigitCh_ne c ((natToChars_spec y.toNat).2.1 c hc)).1
        · rcases List.mem_cons.mp htk4 with rfl | htk5
          · exact clockTok2_chars h.toNat mi.toNat c hc
          · rcases List.mem_cons.mp htk5 with rfl | htk6
            · exact tzChars_chars z c hc
            · exact absurd htk6 (List.not_mem_nil tk)
  have hrel : isRelTokens [natToChars d.toNat, monthName mo,
      natToChars y.toNat, padNat 2 h.toNat ++ ':' :: padNat 2 mi.toNat,
      tzChars z] = false := by
    refine isRelTokens_abs _ _ (natToChars_spec d.toNat).1
      (fun c hc => (isDigitCh_ne c ((natToChars_spec d.toNat).2.1 c hc)).2.2.2.2) ?_
    intro u rs hur
    injection hur with h1 h2
    subst h1
    exact hmn4
  have hstep : datetime_scan
      (datetime_format (canonicalAbs .minute y mo d h mi s fs (some z))) =
      parseAbsTokens [natToChars d.toNat, monthName mo, natToChars y.toNat,
        padNat 2 h.toNat ++ ':' :: padNat 2 mi.toNat, tzChars z] := by
    unfold datetime_scan
    rw [hsp]
    simp only [hrel, Bool.false_eq_true, if_false]
  rw [hstep]
  simp only [parseAbsTokens, allDigits_natToChars, hmn5,
    (natToChars_spec d.toNat).2.2.1, (natToChars_spec y.toNat).2.2.1,
    Int.toNat_of_nonneg hyn, Int.toNat_of_nonneg hdn,
    isTzTok_tzChars, isTzTok_padNat, isTzTok_padNat_append,
    Bool.false_eq_true, not_false_iff, not_false_eq_true,
    true_and, and_true, if_true, if_false]
  rw [if_neg (by omega : ¬ (y = 0))]
  rw [if_pos ⟨hd1, hd2⟩]
  rw [parseClockTok_minute h mi hh0 hh2 hmi0 hmi2]
  rw [parseTzTok_tzChars z hz1 hz2]
  rfl

theorem scanFormat_second (y mo d h mi m : Int) (k : Nat)
    (hy1 : 1 ≤ y) (hmo1 : 1 ≤ mo) (hmo2 : mo ≤ 12)
    (hd1 : 1 ≤ d) (hd2 : d ≤ datetime_days_in_month y mo)
    (hh0 : 0 ≤ h) (hh2 : h ≤ 23) (hmi0 : 0 ≤ mi) (hmi2 : mi ≤ 59)
    (hm1 : 0 ≤ m) (hm2 : m < 60 * 10 ^ k) :
    datetime_scan (datetime_format (canonicalAbs .second y mo d h mi
        ((m : Rat) / (10 : Rat) ^ k) ((k : Nat) : Int) none)) =
      .ok (canonicalAbs .second y mo d h mi
        ((m : Rat) / (10 : Rat) ^ k) ((k : Nat) : Int) none) := by
  obtain ⟨hmn1, hmn2, hmn3, hmn4, hmn5, hmn6⟩ := monthName_props mo hmo1 hmo2
  have hyn : (0 : Int) ≤ y := by omega
  have hdn : (0 : Int) ≤ d := by omega
  have hfmt : datetime_format (canonicalAbs .second y mo d h mi
      ((m : Rat) / (10 : Rat) ^ k) ((k : Nat) : Int) none) =
      joinSep ' ' [natToChars d.toNat, monthName mo, natToChars y.toNat,
        padNat 2 h.toNat ++ ':' :: (padNat 2 mi.toNat ++ ':' ::
          secondChars ((m : Rat) / (10 : Rat) ^ k) ((k : Nat) : Int))] := rfl
  have hsp : splitSep ' ' (datetime_format (canonicalAbs .second y mo d h mi
      ((m : Rat) / (10 : Rat) ^ k) ((k : Nat) : Int) none)) =
      [natToChars d.toNat, monthName mo, natToChars y.toNat,
       padNat 2 h.toNat ++ ':' :: (padNat 2 mi.toNat ++ ':' ::
         secondChars ((m : Rat) / (10 : Rat) ^ k) ((k : Nat) : Int))] := by
    rw [hfmt]
    refine split_join ' ' _ (by simp) ?_
    intro tk htk c hc
    rcases List.mem_cons.mp htk with rfl | htk2
    · exact (isDigitCh_ne c ((natToChars_spec d.toNat).2.1 c hc)).1
    · rcases List.mem_cons.mp htk2 with rfl | htk3
      · exact (hmn1 c hc).1
      · rcases List.mem_cons.mp htk3 with rfl | htk4
        · exact (isDigitCh_ne c ((natToChars_spec y.toNat).2.1 c hc)).1
        · rcases List.mem_cons.mp htk4 with rfl | htk5
          · exact clockTok3_chars h.toNat mi.toNat
              ((m : Rat) / (10 : Rat) ^ k) ((k : Nat) : Int) c hc
          · exact absurd htk5 (List.not_mem_nil tk)
  have hrel : isRelTokens [natToChars d.toNat, monthName mo,
      natToChars y.toNat,
      padNat 2 h.toNat ++ ':' :: (padNat 2 mi.toNat ++ ':' ::
        secondChars ((m : Rat) / (10 : Rat) ^ k) ((k : Nat) : Int))] = false := by
    refine isRelTokens_abs _ _ (natToChars_spec d.toNat).1
      (fun c hc => (isDigitCh_ne c ((natToChars_spec d.toNat).2.1 c hc)).2.2.2.2) ?_
    intro u rs hur
    injection hur with h1 h2
    subst h1
    exact hmn4
  have hstep : datetime_scan (datetime_format (canonicalAbs .second y mo d h mi
      ((m : Rat) / (10 : Rat) ^ k) ((k : Nat) : Int) none)) =
      parseAbsTokens [natToChars d.toNat, monthName mo, natToChars y.toNat,
        padNat 2 h.toNat ++ ':' :: (padNat 2 mi.toNat ++ ':' ::
          secondChars ((m : Rat) / (10 : Rat) ^ k) ((k : Nat) : Int))] := by
    unfold datetime_scan
    rw [hsp]
    simp only [hrel, Bool.false_eq_true, if_false]
  rw [hstep]
  simp only [parseAbsTokens, allDigits_natToChars, hmn5,
    (natToChars_spec d.toNat).2.2.1, (natToChars_spec y.toNat).2.2.1,
    Int.toNat_of_nonneg hyn, Int.toNat_of_nonneg hdn,
    isTzTok_tzChars, isTzTok_padNat, isTzTok_padNat_append,
    Bool.false_eq_true, not_false_iff, not_false_eq_true,
    true_and, and_true, if_true, if_false]
  rw [if_neg (by omega : ¬ (y = 0))]
  rw [if_pos ⟨hd1, hd2⟩]
  rw [parseClockTok_sec h mi m k hh0 hh2 hmi0 hmi2 hm1 hm2]
  rfl

theorem scanFormat_second_tz (y mo d h mi m : Int) (k : Nat) (z : Int)
    (hy1 : 1 ≤ y) (hmo1 : 1 ≤ mo) (hmo2 : mo ≤ 12)
    (hd1 : 1 ≤ d) (hd2 : d ≤ datetime_days_in_month y mo)
    (hh0 : 0 ≤ h) (hh2 : h ≤ 23) (hmi0 : 0 ≤ mi) (hmi2 : mi ≤ 59)
    (hm1 : 0 ≤ m) (hm2 : m < 60 * 10 ^ k) (hz1 : -720 ≤ z) (hz2 : z ≤ 840) :
    datetime_scan (datetime_format (canonicalAbs .second y mo d h mi
        ((m : Rat) / (10 : Rat) ^ k) ((k : Nat) : Int) (some z))) =
      .ok (canonicalAbs .second y mo d h mi
        ((m : Rat) / (10 : Rat) ^ k) ((k : Nat) : Int) (some z)) := by
  obtain ⟨hmn1, hmn2, hmn3, hmn4, hmn5, hmn6⟩ := monthName_props mo hmo1 hmo2
  have hyn : (0 : Int) ≤ y := by omega
  have hdn : (0 : Int) ≤ d := by omega
  have hfmt : datetime_format (canonicalAbs .second y mo d h mi
      ((m : Rat) / (10 : Rat) ^ k) ((k : Nat) : Int) (some z)) =
      joinSep ' ' [natToChars d.toNat, monthName mo, natToChars y.toNat,
        padNat 2 h.toNat ++ ':' :: (padNat 2 mi.toNat ++ ':' ::
          secondChars ((m : Rat) / (10 : Rat) ^ k) ((k : Nat) : Int)),
        tzChars z] := rfl
  have hsp : splitSep ' ' (datetime_format (canonicalAbs .second y mo d h mi
      ((m : Rat) / (10 : Rat) ^ k) ((k : Nat) : Int) (some z))) =
      [natToChars d.toNat, monthName mo, natToChars y.toNat,
       padNat 2 h.toNat ++ ':' :: (padNat 2 mi.toNat ++ ':' ::
         secondChars ((m : Rat) / (10 : Rat) ^ k) ((k : Nat) : Int)),
       tzChars z] := by
    rw [hfmt]
    refine split_join ' ' _ (by simp) ?_
    intro tk htk c hc
    rcases List.mem_cons.mp htk with rfl | htk2
    · exact (isDigitCh_ne c ((natToChars_spec d.toNat).2.1 c hc)).1
    · rcases List.mem_cons.mp htk2 with rfl | htk3
      · exact (hmn1 c hc).1
      · rcases List.mem_cons.mp htk3 with rfl | htk4
        · exact (isDigitCh_ne c ((natToChars_spec y.toNat).2.1 c hc)).1
        · rcases List.mem_cons.mp htk4 with rfl | htk5
          · exact clockTok3_chars h.toNat mi.toNat
              ((m : Rat) / (10 : Rat) ^ k) ((k : Nat) : Int) c hc
          · rcases List.mem_cons.mp htk5 with rfl | htk6
            · exact tzChars_chars z c hc
            · exact absurd htk6 (List.not_mem_nil tk)
  have hrel : isRelTokens [natToChars d.toNat, monthName mo,
      natToChars y.toNat,
      padNat 2 h.toNat ++ ':' :: (padNat 2 mi.toNat ++ ':' ::
        secondChars ((m : Rat) / (10 : Rat) ^ k) ((k : Nat) : Int)),
      tzChars z] = false := by
    refine isRelTokens_abs _ _ (natToChars_spec d.toNat).1
      (fun c hc => (isDigitCh_ne c ((natToChars_spec d.toNat).2.1 c hc)).2.2.2.2) ?_
    intro u rs hur
    injection hur with h1 h2
    subst h1
    exact hmn4
  have hstep : datetime_scan (datetime_format (canonicalAbs .second y mo d h mi
      ((m : Rat) / (10 : Rat) ^ k) ((k : Nat) : Int) (some z))) =
      parseAbsTokens [natToChars d.toNat, monthName mo, natToChars y.toNat,
        padNat 2 h.toNat ++ ':' :: (padNat 2 mi.toNat ++ ':' ::
          secondChars ((m : Rat) / (10 : Rat) ^ k) ((k : Nat) : Int)),
        tzChars z] := by
    unfold datetime_scan
    rw [hsp]
    simp only [hrel, Bool.false_eq_true, if_false]
  rw [hstep]
  simp only [parseAbsTokens, allDigits_natToChars, hmn5,
    (natToChars_spec d.toNat).2.2.1, (natToChars_spec y.toNat).2.2.1,
    Int.toNat_of_nonneg hyn, Int.toNat_of_nonneg hdn,
    isTzTok_tzChars, isTzTok_padNat, isTzTok_padNat_append,
    Bool.false_eq_true, not_false_iff, not_false_eq_true,
    true_and, and_true, if_true, if_false]
  rw [if_neg (by omega : ¬ (y = 0))]
  rw [if_pos ⟨hd1, hd2⟩]
  rw [parseClockTok_sec h mi m k hh0 hh2 hmi0 hmi2 hm1 hm2]
  rw [parseTzTok_tzChars z hz1 hz2]
  rfl

/-- C3 counterexample: the well-formed Hour..Minute absolute value 23:45
formats to the canonical string 23:45, but scanning that canonical output
fails as ambiguous (a Minute..Second value 23:45 formats identically), so
format-after-parse is not the identity on the canonical language: parse does
not even succeed on this Format output. -/
theorem claim_C3_counterexample :
    datetime_format { mode := .absolute, fromField := .hour,
                      toField := .minute, hour := 23, minute := 45 } =
      "23:45".toList ∧
    datetime_scan ("23:45".toList) =
      .error ⟨.parseAmbiguous, "a bare clock pair reads as HH:MM or MM:SS"⟩ :=
  ⟨rfl, rfl⟩

/-- C3 (amended): Scan deliberately rejects the ambiguous part of the
canonical output language, so format-after-parse is not the identity there;
on the unambiguous core it is: for every canonical absolute Year..t value
(t from Month to Second, fields within range, canonical fractional seconds,
year at least 24 when t = Day, and a timezone only when the range reaches
the clock fields), scanning the formatted string returns the value exactly,
hence formatting the parse result reproduces the string. -/
theorem claim_C3_amended_roundtrip
    (t : Field) (y mo d h mi m : Int) (k : Nat) (tzv : Option Int)
    (ht : t = .month ∨ t = .day ∨ t = .hour ∨ t = .minute ∨ t = .second)
    (hy1 : 1 ≤ y) (hyd : t = .day → 24 ≤ y)
    (hmo1 : 1 ≤ mo) (hmo2 : mo ≤ 12)
    (hd1 : 1 ≤ d) (hd2 : d ≤ datetime_days_in_month y mo)
    (hh0 : 0 ≤ h) (hh2 : h ≤ 23) (hmi0 : 0 ≤ mi) (hmi2 : mi ≤ 59)
    (hm1 : 0 ≤ m) (hm2 : m < 60 * 10 ^ k) (_hk6 : k ≤ 6)
    (htz : tzv = none ∨ ∃ z, tzv = some z ∧ -720 ≤ z ∧ z ≤ 840 ∧
      (t = .hour ∨ t = .minute ∨ t = .second)) :
    datetime_scan (datetime_format (canonicalAbs t y mo d h mi
        ((m : Rat) / (10 : Rat) ^ k) ((k : Nat) : Int) tzv)) =
      .ok (canonicalAbs t y mo d h mi
        ((m : Rat) / (10 : Rat) ^ k) ((k : Nat) : Int) tzv) := by
  rcases ht with rfl | rfl | rfl | rfl | rfl
  · rcases htz with rfl | ⟨z, rfl, hz1, hz2, hth⟩
    · exact scanFormat_month y mo d h mi _ _ hy1 hmo1 hmo2
    · rcases hth with hco | hco | hco <;> exact absurd hco (by decide)
  · rcases htz with rfl | ⟨z, rfl, hz1, hz2, hth⟩
    · exact scanFormat_day y mo d h mi _ _ (hyd rfl) hmo1 hmo2 hd1 hd2
    · rcases hth with hco | hco | hco <;> exact absurd hco (by decide)
  · rcases htz with rfl | ⟨z, rfl, hz1, hz2, hth⟩
    · exact scanFormat_hour y mo d h mi _ _ hy1 hmo1 hmo2 hd1 hd2 hh0 hh2
    · exact scanFormat_hour_tz y mo d h mi _ _ z hy1 hmo1 hmo2 hd1 hd2
        hh0 hh2 hz1 hz2
  · rcases htz with rfl | ⟨z, rfl, hz1, hz2, hth⟩
    · exact scanFormat_minute y mo d h mi _ _ hy1 hmo1 hmo2 hd1 hd2
        hh0 hh2 hmi0 hmi2
    · exact scanFormat_minute_tz y mo d h mi _ _ z hy1 hmo1 hmo2 hd1 hd2
        hh0 hh2 hmi0 hmi2 hz1 hz2
  · rcases htz with rfl | ⟨z, rfl, hz1, hz2, hth⟩
    · exact scanFormat_second y mo d h mi m k hy1 hmo1 hmo2 hd1 hd2
        hh0 hh2 hmi0 hmi2 hm1 hm2
    · exact scanFormat_second_tz y mo d h mi m k z hy1 hmo1 hmo2 hd1 hd2
        hh0 hh2 hmi0 hmi2 hm1 hm2 hz1 hz2

/-- Witness: the amended C3 round-trip at 25 Aug 2025 14:30:45.5 +0200. -/
theorem claim_C3_amended_roundtrip_witness :
    datetime_scan (datetime_format (canonicalAbs .second 2025 8 25 14 30
        ((455 : Rat) / (10 : Rat) ^ (1 : Nat)) ((1 : Nat) : Int) (some 120))) =
      .ok (canonicalAbs .second 2025 8 25 14 30
        ((455 : Rat) / (10 : Rat) ^ (1 : Nat)) ((1 : Nat) : Int) (some 120)) :=
  claim_C3_amended_roundtrip .second 2025 8 25 14 30 455 1 (some 120)
    (Or.inr (Or.inr (Or.inr (Or.inr rfl))))
    (by decide) (by decide) (by decide) (by decide) (by decide) (by decide)
    (by decide) (by decide) (by decide) (by decide) (by decide) (by decide)
    (by decide)
    (Or.inr ⟨120, rfl, by decide, by decide, Or.inr (Or.inr rfl)⟩)

end GrassDatetime
